import Mathlib

/-!
The build and chroot pipeline of solbuild

A shallow embedding of the Go sources of solbuild

* `src/src/builder/build.go`  (`CreateDirs`, `FetchSources`, `BindSources`, `CopyAssets`, `Build`)
* `src/builder/chroot.go`     (`Package.Chroot`, here `Chroot`)
* `src/src/builder/chroot.go` (the `Package.Chroot` of the `src` tree, here `SrcTree.Chroot`)
* `src/cmd/chroot.go`         (`chrootPackage`), `src/src/solbuild/cmd/root.go` (`FindLikelyArg`)
* `src/cmd/init.go`           (`doInit`, `downloadImage`, `doUpdate`, `initProfile`)

Every Go function becomes a Lean function from the process state to a result and
the new process state.  The process state carries the trace of everything the
function did to the outside world (calls, tests, log lines), in order.  The
outcome of each outside call is decided by a `World`, an arbitrary function of
the history so far, so a statement proved for every `World` holds for every
outcome of the individual calls.
-/

namespace Solbuild

/-! ## Data model -/

/-- Go's `error` value: `none` is `nil`, `some msg` is an error with message `msg`. -/
abbrev GoError := Option String

/-- The recipe type `PackageType`.  The sources compare it with the two constants
`PackageTypeXML` (legacy) and `PackageTypeYpkg` (modern) only; the Go type is a
string type, so any further value is kept as `Other`. -/
inductive PackageType
  | XML
  | Ypkg
  | Other (name : String)
  deriving DecidableEq, Repr

/-- One declared source of a package (the fields the sources read). -/
structure Source where
  URI : String
  File : String
  SHA1Sum : String
  SHA256Sum : String
  deriving DecidableEq, Repr

/-- The package being built (the fields the sources read, log fields apart);
`Type_` is the field `Type` of the Go structure. -/
structure Package where
  Name : String
  Type_ : PackageType
  Path : String
  Sources : List Source
  CanNetwork : Bool
  deriving DecidableEq, Repr

/-- The overlay of the session: its mount point and the bind mounts to undo later. -/
structure Overlay where
  MountPoint : String
  ExtraMounts : List String
  deriving DecidableEq, Repr

/-- The backing image of a profile (the fields `cmd/init.go` reads). -/
structure BackingImage where
  ImagePath : String
  ImagePathXZ : String
  ImageURI : String
  deriving DecidableEq, Repr

/-- Constants and helpers of the repository and of the Go library that the
embedded functions use but that are not defined in the embedded sources.  They
are parameters: every theorem holds for each value of them. -/
structure Consts where
  BuildUser : String
  BuildUserHome : String
  BuildUserShell : String
  ImagesDir : String
  ErrProfileNotInstalled : String
  EOF : String
  SaneEnvironment : String → String → List String
  GetPath : Source → String → String
  Join : List String → String
  Base : String → String
  Dir : String → String

/-- Levels of the logger. -/
inductive LogLevel
  | Debug
  | Info
  | Warning
  | Error
  deriving DecidableEq, Repr

/-- The calls the embedded functions make.  The first group are functions whose
bodies are outside the embedded sources: the `World` decides what they return.
The last four are the functions of `build.go` that `Build` calls: their bodies
are embedded below and the trace records what they returned. -/
inductive Call
  | CleanExisting
  | ActivateRoot
  | Init
  | StartDBUS
  | Upgrade
  | InstallComponent (name : String)
  | StopDBUS
  | DropNetworking
  | ConfigureNetworking
  | EnsureEopkgLayout (root : String)
  | ChrootExec (root : String) (command : String)
  | ChrootExecStdin (root : String) (command : String)
  | CommandsChrootExec (root : String) (command : String)
  | Abs (path : String)
  | CopyAll (source : String) (dest : String)
  | MkdirAll (path : String)
  | Fetch (source : Source)
  | TouchFile (path : String)
  | BindMount (source : String) (target : String) (options : String)
  | NewManager
  | SetProfile (name : String)
  | NewPackage (path : String)
  | SetPackage
  | ManagerChroot
  | ManagerUpdate
  | Stat (path : String)
  | Create (path : String)
  | HttpGet (uri : String)
  | Read
  | Write (count : Nat)
  | Remove (path : String)
  | Close (path : String)
  | CloseBody
  | ExecStdoutArgsDir (dir : String) (command : String) (args : List String)
  | CopyAssets
  | FetchSources
  | CreateDirs
  | BindSources
  deriving DecidableEq, Repr

/-- The yes/no questions the embedded functions ask the outside world. -/
inductive Query
  | IsFetched (source : Source) (hash : String)
  | PathExists (path : String)
  | IsInstalled (image : BackingImage)
  | ImageIsFetched (image : BackingImage)
  | StatInfo (path : String)
  deriving DecidableEq, Repr

/-- One entry of the trace. -/
inductive Event
  | call (c : Call) (err : GoError)
  | test (q : Query) (answer : Bool)
  | log (level : LogLevel) (msg : String)
  | SetActivePID (pid : Nat)
  | SetStdin (attached : Bool)
  | HandleInterrupt
  | reaper
  | SetLevel (level : LogLevel)
  | DisableColors (value : Bool)
  | BarStart
  | BarFinish
  | read (count : Nat) (err : GoError)
  | Stdout (text : String)
  | Stderr (text : String)
  deriving DecidableEq, Repr

/-- The outside world: what each call returns and how each test answers, given
the trace of the session so far; the absolute path `filepath.Abs` computes; the
effective user of the process; and the body of the response to the download of
an image, as the results of the successive `Read` calls before the end of the
stream (after them `Read` returns no bytes and `io.EOF`). -/
structure World where
  outcome : List Event → Call → GoError
  answer : List Event → Query → Bool
  absPath : List Event → String → String
  euid : Nat
  body : List (Nat × GoError)

/-- The mutable state of the process: the trace so far, the overlay of the
session (`BindSources` appends to its `ExtraMounts`) and the package-level
variable `ChrootEnvironment`. -/
structure State where
  trace : List Event
  overlay : Overlay
  ChrootEnvironment : List String

/-- Append one entry to the trace. -/
def State.emit (s : State) (e : Event) : State :=
  { s with trace := s.trace ++ [e] }

/-- Write one line to the log (the fields of the line are not kept). -/
def State.log (s : State) (level : LogLevel) (msg : String) : State :=
  s.emit (Event.log level msg)

/-- Call a function whose body is outside the embedded sources: the world
decides the error it returns, and the call is recorded with it. -/
def invoke (w : World) (c : Call) (s : State) : GoError × State :=
  (w.outcome s.trace c, s.emit (Event.call c (w.outcome s.trace c)))

/-- Ask the outside world a yes/no question; the answer is recorded. -/
def ask (w : World) (q : Query) (s : State) : Bool × State :=
  (w.answer s.trace q, s.emit (Event.test q (w.answer s.trace q)))

/-- Record what an embedded function returned to its caller. -/
def returned (c : Call) (r : GoError × State) : GoError × State :=
  (r.1, r.2.emit (Event.call c r.1))

/-! ## `src/src/builder/build.go` -/

/-- GetWorkDirInternal returns the internal chroot path for the work directory. -/
def GetWorkDirInternal (k : Consts) (p : Package) : String :=
  if p.Type_ = PackageType.XML then "/WORK"
  else k.Join [k.BuildUserHome, "work"]

/-- GetWorkDir returns the externally visible work directory; `[1:]` drops the
leading separator. -/
def GetWorkDir (k : Consts) (p : Package) (o : Overlay) : String :=
  k.Join [o.MountPoint, (GetWorkDirInternal k p).drop 1]

/-- GetSourceDirInternal returns the chroot-internal source directory. -/
def GetSourceDirInternal (k : Consts) (p : Package) : String :=
  if p.Type_ = PackageType.XML then "/var/cache/eopkg/archives"
  else k.Join [k.BuildUserHome, "YPKG", "sources"]

/-- GetSourceDir returns the externally visible source directory. -/
def GetSourceDir (k : Consts) (p : Package) (o : Overlay) : String :=
  k.Join [o.MountPoint, (GetSourceDirInternal k p).drop 1]

/-- The loop of `CreateDirs` over the directories still to create. -/
def CreateDirs.loop (w : World) : List String → State → GoError × State
  | [], s => (none, s)
  | dir :: rest, s =>
    match invoke w (Call.MkdirAll dir) s with
    | (some err, s) => (some err, s.log LogLevel.Error "Failed to create required directory")
    | (none, s) => CreateDirs.loop w rest s

/-- CreateDirs creates any directories we may need later on. -/
def CreateDirs (w : World) (k : Consts) (p : Package) (s : State) : GoError × State :=
  CreateDirs.loop w [GetWorkDir k p s.overlay, GetSourceDir k p s.overlay] s

/-- The loop of `FetchSources` over the sources still to look at. -/
def FetchSources.loop (w : World) (p : Package) : List Source → State → State
  | [], s => s
  | source :: rest, s =>
    let expHash := if p.Type_ = PackageType.XML then source.SHA1Sum else source.SHA256Sum
    match ask w (Query.IsFetched source expHash) s with
    | (true, s) => FetchSources.loop w p rest s
    | (false, s) =>
      match invoke w (Call.Fetch source) (s.log LogLevel.Info "Downloading source") with
      | (some _, s) => FetchSources.loop w p rest (s.log LogLevel.Error "Failed to fetch source")
      | (none, s) => FetchSources.loop w p rest s

/-- FetchSources will attempt to fetch the sources from the network if necessary. -/
def FetchSources (w : World) (p : Package) (s : State) : GoError × State :=
  (none, FetchSources.loop w p p.Sources s)

/-- The loop of `BindSources` over the sources still to bind. -/
def BindSources.loop (w : World) (k : Consts) (p : Package) : List Source → State → GoError × State
  | [], s => (none, s)
  | source :: rest, s =>
    let expHash := if p.Type_ = PackageType.XML then source.SHA1Sum else source.SHA256Sum
    let localFile := k.GetPath source expHash
    let sourceDir := GetSourceDir k p s.overlay
    let tgtPath := k.Join [sourceDir, source.File]
    let continue_ : State → GoError × State := fun s =>
      match invoke w (Call.TouchFile tgtPath) (s.log LogLevel.Debug "Exposing source to container") with
      | (some _, s) => (none, s.log LogLevel.Error "Failed to create bind mount target")
      | (none, s) =>
        match invoke w (Call.BindMount localFile tgtPath "ro") s with
        | (some err, s) => (some err, s.log LogLevel.Error "Failed to bind mount source")
        | (none, s) =>
          BindSources.loop w k p rest
            { s with overlay := { s.overlay with ExtraMounts := s.overlay.ExtraMounts ++ [tgtPath] } }
    match ask w (Query.PathExists sourceDir) s with
    | (true, s) => continue_ s
    | (false, s) =>
      match invoke w (Call.MkdirAll sourceDir) s with
      | (some err, s) => (some err, s.log LogLevel.Error "Failed to create source directory")
      | (none, s) => continue_ s

/-- BindSources will make the sources available to the chroot by bind mounting
them into place. -/
def BindSources (w : World) (k : Consts) (p : Package) (s : State) : GoError × State :=
  BindSources.loop w k p p.Sources s

/-- The loop of `CopyAssets` over the paths still to copy. -/
def CopyAssets.loop (w : World) (k : Consts) (baseDir destdir : String) :
    List String → State → GoError × State
  | [], s => (none, s)
  | path :: rest, s =>
    match invoke w (Call.CopyAll (k.Join [baseDir, path]) destdir) s with
    | (some err, s) => (some err, s)
    | (none, s) => CopyAssets.loop w k baseDir destdir rest s

/-- CopyAssets will copy all of the required assets into the builder root. -/
def CopyAssets (w : World) (k : Consts) (p : Package) (s : State) : GoError × State :=
  let baseDir := k.Dir p.Path
  let abs := w.absPath s.trace baseDir
  match invoke w (Call.Abs baseDir) s with
  | (some err, s) => (some err, s)
  | (none, s) =>
    let baseDir := abs
    let copyPaths := [k.Base p.Path, "files", "comar", "component.xml"]
    let copyPaths := if p.Type_ = PackageType.XML then copyPaths ++ ["actions.py"] else copyPaths
    let destdir := GetWorkDir k p s.overlay
    CopyAssets.loop w k baseDir destdir copyPaths s

/-- Build will attempt to build the package in the overlayfs system. -/
def Build (w : World) (k : Consts) (p : Package) (s : State) : GoError × State :=
  let s := s.log LogLevel.Info "Building package"
  -- Set up environment
  match invoke w Call.CleanExisting s with
  | (some err, s) => (some err, s)
  | (none, s) =>
  -- Bring up the root
  match invoke w Call.ActivateRoot s with
  | (some err, s) => (some err, s)
  | (none, s) =>
  -- Ensure source assets are in place
  match returned Call.CopyAssets (CopyAssets w k p s) with
  | (some err, s) => (some err, s.log LogLevel.Error "Failed to copy required source assets")
  | (none, s) =>
  match returned Call.FetchSources (FetchSources w p (s.log LogLevel.Info "Validating sources")) with
  | (some err, s) => (some err, s)
  | (none, s) =>
  -- Set up package manager
  match invoke w Call.Init s with
  | (some err, s) => (some err, s)
  | (none, s) =>
  -- Bring up dbus to do Things
  match invoke w Call.StartDBUS (s.log LogLevel.Debug "Starting D-BUS") with
  | (some err, s) => (some err, s.log LogLevel.Error "Failed to start d-bus")
  | (none, s) =>
  match invoke w Call.Upgrade (s.log LogLevel.Info "Upgrading system base") with
  | (some err, s) => (some err, s.log LogLevel.Error "Failed to upgrade rootfs")
  | (none, s) =>
  match invoke w (Call.InstallComponent "system.devel")
      (s.log LogLevel.Info "Asserting system.devel component installation") with
  | (some err, s) => (some err, s.log LogLevel.Error "Failed to assert system.devel")
  | (none, s) =>
  -- Ensure all directories are in place
  match returned Call.CreateDirs (CreateDirs w k p s) with
  | (some err, s) => (some err, s)
  | (none, s) =>
  if p.Type_ = PackageType.Ypkg then
    let wdir := GetWorkDirInternal k p
    let ymlFile := k.Join [wdir, k.Base p.Path]
    let cmd := "ypkg-install-deps -f " ++ ymlFile
    -- Install build dependencies
    match invoke w (Call.ChrootExec s.overlay.MountPoint cmd)
        (s.log LogLevel.Info "Installing build dependencies") with
    | (some err, s) => (some err, s.log LogLevel.Error "Failed to install build dependencies")
    | (none, s) =>
    let s := s.emit (Event.SetActivePID 0)
    -- Cleanup now
    match invoke w Call.StopDBUS (s.log LogLevel.Debug "Stopping D-BUS") with
    | (some err, s) => (some err, s.log LogLevel.Error "Failed to stop d-bus")
    | (none, s) =>
    -- Chwn the directory before bringing up sources
    let cmd := "chown -R " ++ k.BuildUser ++ ":" ++ k.BuildUser ++ " " ++ k.BuildUserHome
    match invoke w (Call.ChrootExec s.overlay.MountPoint cmd) s with
    | (some err, s) => (some err, s.log LogLevel.Error "Failed to set home directory permissions")
    | (none, s) =>
    let s := s.emit (Event.SetActivePID 0)
    -- Now kill networking
    match invoke w Call.DropNetworking s with
    | (some err, s) => (some err, s)
    | (none, s) =>
    -- Ensure the overlay can network on localhost only
    match invoke w Call.ConfigureNetworking s with
    | (some err, s) => (some err, s)
    | (none, s) =>
    -- Bring up sources
    match returned Call.BindSources (BindSources w k p s) with
    | (some err, s) => (some err, s.log LogLevel.Error "Cannot continue without sources")
    | (none, s) =>
    -- Reaffirm the layout
    match invoke w (Call.EnsureEopkgLayout s.overlay.MountPoint) s with
    | (some err, s) => (some err, s)
    | (none, s) =>
    -- Now build the package
    let cmd := "/bin/su - " ++ k.BuildUser ++ " -- fakeroot ypkg-build -D " ++ wdir ++ " " ++ ymlFile
    match invoke w (Call.ChrootExec s.overlay.MountPoint cmd)
        (s.log LogLevel.Info "Now starting build of package") with
    | (some err, s) => (some err, s.log LogLevel.Error "Failed to build package")
    | (none, s) =>
    let s := s.emit (Event.SetActivePID 0)
    (some "Not yet implemented", s)
  else
    -- Just straight up build it with eopkg
    let s := s.log LogLevel.Warning "Full sandboxing is not possible with legacy format"
    -- Now we can stop dbus..
    match invoke w Call.StopDBUS (s.log LogLevel.Debug "Stopping D-BUS") with
    | (some err, s) => (some err, s.log LogLevel.Error "Failed to stop d-bus")
    | (none, s) =>
    (some "Not yet implemented", s)

/-! ## `src/builder/chroot.go` -/

/-- Chroot will attempt to spawn a chroot in the overlayfs system. -/
def Chroot (w : World) (k : Consts) (p : Package) (s : State) : GoError × State :=
  let s := s.log LogLevel.Debug "Beginning chroot"
  let env :=
    if p.Type_ = PackageType.XML then k.SaneEnvironment "root" "/root"
    else k.SaneEnvironment k.BuildUser k.BuildUserHome
  let s := { s with ChrootEnvironment := env }
  let shell : State → GoError × State := fun s =>
    let s := s.log LogLevel.Debug "Spawning login shell"
    -- Allow bash to work
    let s := s.emit (Event.SetStdin true)
    -- Legacy package format requires root, stay as root.
    let user := if p.Type_ = PackageType.XML then "root" else k.BuildUser
    let loginCommand := "/bin/su - " ++ user ++ " -s " ++ k.BuildUserShell
    let r := invoke w (Call.ChrootExecStdin s.overlay.MountPoint loginCommand) s
    let s := r.2.emit (Event.SetStdin false)
    let s := s.emit (Event.SetActivePID 0)
    (r.1, s)
  match invoke w Call.ActivateRoot s with
  | (some err, s) => (some err, s)
  | (none, s) =>
  -- Now kill networking
  if p.Type_ = PackageType.Ypkg then
    if !p.CanNetwork then
      match invoke w Call.DropNetworking s with
      | (some err, s) => (some err, s)
      | (none, s) =>
      -- Ensure the overlay can network on localhost only
      match invoke w Call.ConfigureNetworking s with
      | (some err, s) => (some err, s)
      | (none, s) => shell s
    else
      shell (s.log LogLevel.Warning "Package has explicitly requested networking, sandboxing disabled")
  else
    shell s

/-! ## `src/src/builder/chroot.go` -/

/-- Chroot of `src/src/builder/chroot.go`: it makes its own overlay and reaper.
`overlay` is what `NewOverlay(img, p)` returns.  The reaper returned by
`GrimReaper` is deferred, so it runs when `Chroot` returns, on every path;
`HandleInterrupt` registers the same reaper for an interrupt of the process and
does not run it. -/
def SrcTree.Chroot (w : World) (k : Consts) (p : Package) (overlay : Overlay) (s : State) :
    GoError × State :=
  let s := s.log LogLevel.Info "Beginning chroot"
  let s := { s with overlay := overlay }
  -- Ensure we clean up after ourselves
  let deferred : GoError × State → GoError × State := fun r => (r.1, r.2.emit Event.reaper)
  let s := s.emit Event.HandleInterrupt
  deferred <|
  match invoke w Call.ActivateRoot s with
  | (some err, s) => (some err, s)
  | (none, s) =>
  -- Now kill networking
  match invoke w Call.DropNetworking s with
  | (some _, s) => (none, s)
  | (none, s) =>
  -- Ensure the overlay can network on localhost only
  match invoke w Call.ConfigureNetworking s with
  | (some _, s) => (none, s)
  | (none, s) =>
  let s := s.log LogLevel.Info "Spawning login shell"
  -- Allow bash to work
  let s := s.emit (Event.SetStdin true)
  -- Legacy package format requires root, stay as root.
  let user := if p.Type_ = PackageType.XML then "root" else k.BuildUser
  let loginCommand := "/bin/su - " ++ user ++ " -s " ++ k.BuildUserShell
  let r := invoke w (Call.CommandsChrootExec s.overlay.MountPoint loginCommand) s
  let s := r.2.emit (Event.SetStdin false)
  (r.1, s)

/-! ## `src/cmd/chroot.go`, `src/src/solbuild/cmd/root.go`, `src/cmd/init.go` -/

/-- The package-level variables of `cmd` that the command line sets. -/
structure Flags where
  profile : String
  CLIDebug : Bool
  DisableColors : Bool
  autoUpdate : Bool

/-- How a command function ends: it returns `a` to its caller, or it ends the
process through `os.Exit(code)`. -/
inductive Outcome (α : Type)
  | ret (a : α)
  | exit (code : Nat)
  deriving DecidableEq, Repr

/-- The white space of Go's `unicode.IsSpace`. -/
def isSpace (c : Char) : Bool :=
  c.toNat ∈ [0x09, 0x0A, 0x0B, 0x0C, 0x0D, 0x20, 0x85, 0xA0, 0x1680, 0x2028, 0x2029, 0x202F,
    0x205F, 0x3000] || (0x2000 ≤ c.toNat && c.toNat ≤ 0x200A)

/-- Go's `strings.TrimSpace`: the string without its leading and trailing white space. -/
def TrimSpace (s : String) : String :=
  String.mk ((s.data.dropWhile isSpace).reverse.dropWhile isSpace).reverse

/-- The loop of `FindLikelyArg` over the names still to look for.  `os.Stat`
returns an error and a file information; the name is returned when the error is
nil and the information is not. -/
def FindLikelyArg.loop (w : World) : List String → State → String × State
  | [], s => ("", s)
  | path :: rest, s =>
    match invoke w (Call.Stat path) s with
    | (none, s) =>
      match ask w (Query.StatInfo path) s with
      | (true, s) => (path, s)
      | (false, s) => FindLikelyArg.loop w rest s
    | (some _, s) => FindLikelyArg.loop w rest s

/-- FindLikelyArg will look in the current directory to see if common path names
exist, for when it is acceptable to omit a filename. -/
def FindLikelyArg (w : World) (s : State) : String × State :=
  FindLikelyArg.loop w ["package.yml", "pspec.xml"] s

/-- The function `chrootPackage` of `src/cmd/chroot.go`, the `RunE` of the command `chroot`. -/
def chrootPackage (w : World) (k : Consts) (f : Flags) (args : List String) (s : State) :
    Outcome GoError × State :=
  let s := if f.CLIDebug then s.emit (Event.SetLevel LogLevel.Debug) else s
  let s := s.emit (Event.DisableColors f.DisableColors)
  let r : String × State :=
    match args with
    | [arg] => (arg, s)
    | _ => FindLikelyArg w s  -- Try to find the logical path..
  let pkgPath := TrimSpace r.1
  let s := r.2
  if pkgPath = "" then (Outcome.ret (some "Require a filename to chroot"), s)
  else if w.euid ≠ 0 then
    (Outcome.exit 1, s.emit (Event.Stderr "You must be root to use chroot\n"))
  else
  -- Initialise the build manager
  match invoke w Call.NewManager s with
  | (some _, s) => (Outcome.ret none, s)
  | (none, s) =>
  -- Safety first..
  match invoke w (Call.SetProfile f.profile) s with
  | (some _, s) => (Outcome.ret none, s)
  | (none, s) =>
  match invoke w (Call.NewPackage pkgPath) s with
  | (some err, s) =>
    (Outcome.ret none, s.emit (Event.Stderr ("Failed to load package: " ++ err ++ "\n")))
  | (none, s) =>
  -- Set the package
  match invoke w Call.SetPackage s with
  | (some err, s) =>
    let s := if err = k.ErrProfileNotInstalled
      then s.emit (Event.Stderr (err ++ ": Did you forget to init?\n")) else s
    (Outcome.ret none, s)
  | (none, s) =>
  match invoke w Call.ManagerChroot s with
  | (some _, s) => (Outcome.ret none, s.log LogLevel.Error "Chroot failure")
  | (none, s) =>
  (Outcome.ret none, s.log LogLevel.Info "Chroot complete")

/-- The loop `for !done` of `downloadImage` over the results of the `Read` calls
still to come; the defers are run by `downloadImage`.  The counter
`bytesRemaining` is written and never read, so it is left out. -/
def downloadImage.loop (w : World) (k : Consts) : List (Nat × GoError) → State → GoError × State
  | [], s =>
    -- end of the stream: `Read` returns no bytes and `io.EOF`, so `done = true`
    match invoke w (Call.Write 0) (s.emit (Event.read 0 (some k.EOF))) with
    | (some err, s) => (some err, s.log LogLevel.Error "Failed to write to file")
    | (none, s) => (none, s)
  | (bytesRead, err) :: later, s =>
    let s := s.emit (Event.read bytesRead err)
    if err = some k.EOF then
      -- `done = true`
      match invoke w (Call.Write bytesRead) s with
      | (some err, s) => (some err, s.log LogLevel.Error "Failed to write to file")
      | (none, s) => (none, s)
    else if err ≠ none then (err, s.log LogLevel.Error "Failed to fetch image")
    else
      match invoke w (Call.Write bytesRead) s with
      | (some err, s) => (some err, s.log LogLevel.Error "Failed to write to file")
      | (none, s) => downloadImage.loop w k later s

/-- Downloads an image using net/http.  The deferred calls run on return, last
registered first; the first registered removes the file when the function
returns an error. -/
def downloadImage (w : World) (k : Consts) (bk : BackingImage) (s : State) : GoError × State :=
  match invoke w (Call.Create bk.ImagePathXZ) s with
  | (some err, s) => (some err, s.log LogLevel.Error "Failed to create file")
  | (none, s) =>
  let removeOnError : GoError × State → GoError × State := fun r =>
    if r.1 ≠ none then (r.1, (invoke w (Call.Remove bk.ImagePathXZ) r.2).2) else r
  let closeFile : GoError × State → GoError × State := fun r =>
    (r.1, (invoke w (Call.Close bk.ImagePathXZ) r.2).2)
  removeOnError <| closeFile <|
  match invoke w (Call.HttpGet bk.ImageURI) s with
  | (some err, s) => (some err, s.log LogLevel.Error "Failed to fetch image")
  | (none, s) =>
  let closeBody : GoError × State → GoError × State := fun r =>
    (r.1, (invoke w Call.CloseBody r.2).2)
  let s := s.emit Event.BarStart
  let finishBar : GoError × State → GoError × State := fun r => (r.1, r.2.emit Event.BarFinish)
  closeBody <| finishBar <| downloadImage.loop w k w.body s

/-- The function `doInit` of `src/cmd/init.go`; `bk` is the backing image of the
profile of the manager, `builder.NewBackingImage(prof.Image)`. -/
def doInit (w : World) (k : Consts) (f : Flags) (bk : BackingImage) (s : State) :
    Outcome Unit × State :=
  match ask w (Query.IsInstalled bk) s with
  | (true, s) =>
    (Outcome.ret (), s.emit (Event.Stdout ("'" ++ f.profile ++ "' has already been initialised\n")))
  | (false, s) =>
  let imgDir := k.ImagesDir
  let continue_ : State → Outcome Unit × State := fun s =>
    -- Now ensure we actually have said image
    let s :=
      match ask w (Query.ImageIsFetched bk) s with
      | (true, s) => s
      | (false, s) => (downloadImage w k bk s).2
    -- Decompress the image
    let s := s.log LogLevel.Debug "Decompressing backing image"
    let s :=
      match invoke w (Call.ExecStdoutArgsDir k.ImagesDir "unxz" [bk.ImagePathXZ]) s with
      | (some _, s) => s.log LogLevel.Error "Failed to decompress image"
      | (none, s) => s
    (Outcome.ret (), s.log LogLevel.Info "Profile successfully initialised")
  -- Ensure directories exist
  match ask w (Query.PathExists imgDir) s with
  | (true, s) => continue_ s
  | (false, s) =>
    match invoke w (Call.MkdirAll imgDir) s with
    | (some _, s) => (Outcome.exit 1, s.log LogLevel.Error "Failed to create images directory")
    | (none, s) => continue_ (s.log LogLevel.Debug "Created images directory")

/-- The function `doUpdate` performs an update to the image after the initial init stage. -/
def doUpdate (w : World) (s : State) : Outcome Unit × State :=
  match invoke w Call.ManagerUpdate s with
  | (some _, s) => (Outcome.exit 1, s)
  | (none, s) => (Outcome.ret (), s)

/-- The function `initProfile` of `src/cmd/init.go`, the `Run` of the command `init`;
`bk` is the backing image of the profile that `SetProfile` selected. -/
def initProfile (w : World) (k : Consts) (f : Flags) (bk : BackingImage) (args : List String)
    (s : State) : Outcome Unit × State :=
  let f : Flags :=
    match args with
    | [arg] => { f with profile := TrimSpace arg }
    | _ => f
  let s := if f.CLIDebug then s.emit (Event.SetLevel LogLevel.Debug) else s
  let s := s.emit (Event.DisableColors f.DisableColors)
  if w.euid ≠ 0 then
    (Outcome.exit 1, s.emit (Event.Stderr "You must be root to run init profiles\n"))
  else
  -- Now we'll update the newly initialised image
  match invoke w Call.NewManager s with
  | (some _, s) => (Outcome.ret (), s)
  | (none, s) =>
  -- Safety first..
  match invoke w (Call.SetProfile f.profile) s with
  | (some _, s) => (Outcome.ret (), s)
  | (none, s) =>
  match doInit w k f bk s with
  | (Outcome.exit code, s) => (Outcome.exit code, s)
  | (Outcome.ret _, s) =>
  if f.autoUpdate then doUpdate w s else (Outcome.ret (), s)

/-! ## Reading a trace -/

/-- What a function did: the entries it appended to the trace of the state `s`
it was started in. -/
def did (s : State) (r : GoError × State) : List Event :=
  r.2.trace.drop s.trace.length

/-- The stages of the pipeline: the calls that the body of `Build` itself makes
(`build.go`, lines 206 to 340).  The calls made inside `CopyAssets`,
`FetchSources`, `CreateDirs` and `BindSources` are not stages. -/
def isStage : Call → Bool
  | Call.CleanExisting => true
  | Call.ActivateRoot => true
  | Call.CopyAssets => true
  | Call.FetchSources => true
  | Call.Init => true
  | Call.StartDBUS => true
  | Call.Upgrade => true
  | Call.InstallComponent _ => true
  | Call.CreateDirs => true
  | Call.ChrootExec _ _ => true
  | Call.StopDBUS => true
  | Call.DropNetworking => true
  | Call.ConfigureNetworking => true
  | Call.BindSources => true
  | Call.EnsureEopkgLayout _ => true
  | _ => false

/-- The stage of a trace entry, with the error it returned. -/
def Event.stage? : Event → Option (Call × GoError)
  | Event.call c err => if isStage c then some (c, err) else none
  | _ => none

/-- The stages invoked in a trace, in order, each with the error it returned. -/
def stageCalls (t : List Event) : List (Call × GoError) :=
  t.filterMap Event.stage?

/-- The call of a trace entry, if it is one. -/
def Event.call? : Event → Option Call
  | Event.call c _ => some c
  | _ => none

/-- All calls made in a trace, in order. -/
def calls (t : List Event) : List Call :=
  t.filterMap Event.call?

/-- The command that installs the build dependencies (`build.go`, line 266). -/
def depsCommand (k : Consts) (p : Package) : String :=
  "ypkg-install-deps -f " ++ k.Join [GetWorkDirInternal k p, k.Base p.Path]

/-- The command that fixes the ownership of the build-user home (`build.go`, line 292). -/
def chownCommand (k : Consts) : String :=
  "chown -R " ++ k.BuildUser ++ ":" ++ k.BuildUser ++ " " ++ k.BuildUserHome

/-- The build command, run as the build user (`build.go`, line 323). -/
def buildCommand (k : Consts) (p : Package) : String :=
  "/bin/su - " ++ k.BuildUser ++ " -- fakeroot ypkg-build -D " ++ GetWorkDirInternal k p ++ " " ++
    k.Join [GetWorkDirInternal k p, k.Base p.Path]

/-- The stages common to both recipe types, in the order of section 4.7 of the
specification (steps 1 to 6). -/
def commonStages : List Call :=
  [Call.CleanExisting, Call.ActivateRoot, Call.CopyAssets, Call.FetchSources, Call.Init,
   Call.StartDBUS, Call.Upgrade, Call.InstallComponent "system.devel", Call.CreateDirs]

/-- The stages of a modern package after `CreateDirs`, in the order of section 4.7
of the specification (step 7). -/
def modernStages (k : Consts) (p : Package) (o : Overlay) : List Call :=
  [Call.ChrootExec o.MountPoint (depsCommand k p), Call.StopDBUS,
   Call.ChrootExec o.MountPoint (chownCommand k), Call.DropNetworking, Call.ConfigureNetworking,
   Call.BindSources, Call.EnsureEopkgLayout o.MountPoint,
   Call.ChrootExec o.MountPoint (buildCommand k p)]

/-- The plan of the pipeline as the specification words it: the common stages,
then step 7 for a modern package and only the stop of the service bus (step 8)
for any other. -/
def plan (k : Consts) (p : Package) (o : Overlay) : List Call :=
  commonStages ++ (if p.Type_ = PackageType.Ypkg then modernStages k p o else [Call.StopDBUS])

/-- The driver of the specification (section 4.7, step 9): the stages of the plan are
invoked one after the other; the first one that returns an error is the last one
invoked and its error is the result; when none fails the result is `final`. -/
def followsPlan (final : GoError) : List Call → List (Call × GoError) → GoError → Prop
  | [], sc, res => sc = [] ∧ res = final
  | c :: rest, (c', none) :: sc, res => c' = c ∧ followsPlan final rest sc res
  | c :: _, [(c', some err)], res => c' = c ∧ res = some err
  | _ :: _, _, _ => False

/-- The state `s'` is reached from `s` by steps inside a stage: the trace of `s`
grew by entries that are not stages and the mount point is the same. -/
def Inner (s s' : State) : Prop :=
  ∃ t, s'.trace = s.trace ++ t ∧ stageCalls t = [] ∧ s'.overlay.MountPoint = s.overlay.MountPoint

/-- The pipeline started in `s` has come to `s'` with the stages `done` invoked
so far, in this order, all without error. -/
def Progress (s s' : State) (done : List Call) : Prop :=
  ∃ t, s'.trace = s.trace ++ t ∧ stageCalls t = done.map (fun c => (c, none)) ∧
    s'.overlay.MountPoint = s.overlay.MountPoint

/-- What is to be shown of a finished run `r` started in `s`: its stages follow the plan `pl`. -/
def Finished (final : GoError) (pl : List Call) (s : State) (r : GoError × State) : Prop :=
  ∃ t, r.2.trace = s.trace ++ t ∧ followsPlan final pl (stageCalls t) r.1 ∧
    r.2.overlay.MountPoint = s.overlay.MountPoint

/-! ## Concrete inputs -/

/-- The values of the constants in the examples.  `Join`, `Base` and `Dir` are
the Go functions restricted to the clean paths and bare file names used there. -/
def exampleConsts : Consts where
  BuildUser := "build"
  BuildUserHome := "/home/build"
  BuildUserShell := "/bin/bash"
  ImagesDir := "/var/lib/solbuild/images"
  ErrProfileNotInstalled := "Profile is not installed"
  EOF := "EOF"
  SaneEnvironment := fun user home => ["HOME=" ++ home, "USER=" ++ user]
  GetPath := fun source hash => "/var/lib/solbuild/sources/" ++ hash ++ "/" ++ source.File
  Join := fun elems => "/".intercalate (elems.filter (fun e => e ≠ ""))
  Base := fun path => path
  Dir := fun _ => "."

/-- A world in which every call succeeds and every test says yes. -/
def quietWorld : World where
  outcome := fun _ _ => none
  answer := fun _ _ => true
  absPath := fun _ _ => "/home/dev/nano"
  euid := 0
  body := []

/-- A world in which the call `c` fails with `msg`, every other call succeeds
and every test says yes. -/
def failingWorld (c : Call) (msg : String) : World where
  outcome := fun _ c' => if c' = c then some msg else none
  answer := fun _ _ => true
  absPath := fun _ _ => "/home/dev/nano"
  euid := 0
  body := []

/-- A modern package that declares network access, with one source. -/
def nano : Package where
  Name := "nano"
  Type_ := PackageType.Ypkg
  Path := "package.yml"
  Sources := [⟨"https://example.org/nano-2.7.tar.xz", "nano-2.7.tar.xz", "3a1f", "9b7e"⟩]
  CanNetwork := true

/-- A legacy package that does not declare network access, with one source. -/
def pspec : Package where
  Name := "zlib"
  Type_ := PackageType.XML
  Path := "pspec.xml"
  Sources := [⟨"https://example.org/zlib-1.2.tar.gz", "zlib-1.2.tar.gz", "77c0", "e4d2"⟩]
  CanNetwork := false

/-- The state of a process that has done nothing yet, with its overlay. -/
def fresh : State where
  trace := []
  overlay := ⟨"/var/cache/solbuild/unstable/union", []⟩
  ChrootEnvironment := []

/-- The tests `IsFetched` of a trace, in order: the source, the hash asked for
and the answer. -/
def fetchTests (t : List Event) : List (Source × String × Bool) :=
  t.filterMap fun e =>
    match e with
    | Event.test (Query.IsFetched source hash) answer => some (source, hash, answer)
    | _ => none

/-- The sources on which `Fetch` is called in a trace, in order. -/
def fetches (t : List Event) : List Source :=
  t.filterMap fun e =>
    match e with
    | Event.call (Call.Fetch source) _ => some source
    | _ => none

/-- The hash `FetchSources` and `BindSources` expect of a source (`build.go`, lines 50 to 55). -/
def expHash (p : Package) (source : Source) : String :=
  if p.Type_ = PackageType.XML then source.SHA1Sum else source.SHA256Sum


/-- The call of a trace entry with the error it returned, if it is a call. -/
def Event.result? : Event → Option (Call × GoError)
  | Event.call c err => some (c, err)
  | _ => none

/-- All calls made in a trace, in order, each with the error it returned. -/
def callResults (t : List Event) : List (Call × GoError) :=
  t.filterMap Event.result?

/-- The login command of `Chroot` for the user `user` (`src/builder/chroot.go`, line 74). -/
def loginCommand (k : Consts) (user : String) : String :=
  "/bin/su - " ++ user ++ " -s " ++ k.BuildUserShell

/-- A world for the command `init`: the profile is not installed, the images
directory exists, the image is in place or not as `fetched` says, and the calls
in `bad` fail with `msg`. -/
def initWorld (fetched : Bool) (bad : List Call) (msg : String) : World where
  outcome := fun _ c => if c ∈ bad then some msg else none
  answer := fun _ q =>
    match q with
    | Query.IsInstalled _ => false
    | Query.ImageIsFetched _ => fetched
    | _ => true
  absPath := fun _ path => path
  euid := 0
  body := []

/-- The backing image of the profile `unstable-x86_64`. -/
def unstableImage : BackingImage where
  ImagePath := "/var/lib/solbuild/images/unstable-x86_64.img"
  ImagePathXZ := "/var/lib/solbuild/images/unstable-x86_64.img.xz"
  ImageURI := "https://example.org/unstable-x86_64.img.xz"

/-- The command line `-p unstable-x86_64`, no other flag. -/
def plainFlags : Flags where
  profile := "unstable-x86_64"
  CLIDebug := false
  DisableColors := false
  autoUpdate := false

/-- The placeholder of the source of `nano` inside the overlay of `fresh`. -/
def touchTarget : String :=
  "/var/cache/solbuild/unstable/union/home/build/YPKG/sources/nano-2.7.tar.xz"

/-- The decompression call of `doInit` for `unstableImage`. -/
def unxzCall : Call :=
  Call.ExecStdoutArgsDir "/var/lib/solbuild/images" "unxz"
    ["/var/lib/solbuild/images/unstable-x86_64.img.xz"]

/-- The bind mounts attempted in a trace, in order: the local file, the target
and the error `BindMount` returned. -/
def bindMounts (t : List Event) : List (String × String × GoError) :=
  t.filterMap fun e =>
    match e with
    | Event.call (Call.BindMount source target _) err => some (source, target, err)
    | _ => none

/-- The targets of the bind mounts of a trace that succeeded, in order. -/
def mounted (t : List Event) : List String :=
  ((bindMounts t).filter (fun x => x.2.2.isNone)).map (fun x => x.2.1)

/-- The target path of a source in the chroot: the source directory joined with
the file name of the source (`build.go`, line 106). -/
def tgtPath (k : Consts) (p : Package) (o : Overlay) (source : Source) : String :=
  k.Join [GetSourceDir k p o, source.File]

/-! ## Basic facts about the state and the trace -/

@[simp] theorem State.emit_trace (s : State) (e : Event) : (s.emit e).trace = s.trace ++ [e] := rfl

@[simp] theorem State.emit_overlay (s : State) (e : Event) : (s.emit e).overlay = s.overlay := rfl

@[simp] theorem State.emit_env (s : State) (e : Event) :
    (s.emit e).ChrootEnvironment = s.ChrootEnvironment := rfl

@[simp] theorem State.log_trace (s : State) (l : LogLevel) (m : String) :
    (s.log l m).trace = s.trace ++ [Event.log l m] := rfl

@[simp] theorem State.log_overlay (s : State) (l : LogLevel) (m : String) :
    (s.log l m).overlay = s.overlay := rfl

@[simp] theorem State.log_env (s : State) (l : LogLevel) (m : String) :
    (s.log l m).ChrootEnvironment = s.ChrootEnvironment := rfl

@[simp] theorem stageCalls_nil : stageCalls [] = [] := rfl

@[simp] theorem stageCalls_append (t u : List Event) :
    stageCalls (t ++ u) = stageCalls t ++ stageCalls u := by
  simp [stageCalls]

@[simp] theorem stageCalls_cons (e : Event) (t : List Event) :
    stageCalls (e :: t) = (e.stage?).toList ++ stageCalls t := by
  cases h : e.stage? <;> simp [stageCalls, List.filterMap_cons, h]

@[simp] theorem calls_nil : calls [] = [] := rfl

@[simp] theorem calls_append (t u : List Event) : calls (t ++ u) = calls t ++ calls u := by
  simp [calls]

@[simp] theorem calls_cons (e : Event) (t : List Event) :
    calls (e :: t) = (e.call?).toList ++ calls t := by
  cases h : e.call? <;> simp [calls, List.filterMap_cons, h]

/-- A state reached from `s` by appending `t` to the trace and keeping the mount point. -/
theorem did_eq (s : State) (r : GoError × State) (t : List Event)
    (h : r.2.trace = s.trace ++ t) : did s r = t := by
  simp [did, h]

/-! ## The functions of `build.go` that `Build` calls -/

theorem Inner.refl (s : State) : Inner s s :=
  ⟨[], by simp, rfl, rfl⟩

theorem Inner.trans {s s' s'' : State} (h : Inner s s') (h' : Inner s' s'') : Inner s s'' := by
  obtain ⟨t, ht, hs, ho⟩ := h
  obtain ⟨t', ht', hs', ho'⟩ := h'
  exact ⟨t ++ t', by simp [ht', ht], by simp [hs, hs'], by rw [ho', ho]⟩

theorem Inner.emit {s s' : State} (h : Inner s s') (e : Event) (he : e.stage? = none) :
    Inner s (s'.emit e) := by
  obtain ⟨t, ht, hs, ho⟩ := h
  exact ⟨t ++ [e], by simp [ht], by simp [hs, he], by simpa using ho⟩

theorem Inner.log {s s' : State} (h : Inner s s') (l : LogLevel) (m : String) :
    Inner s (s'.log l m) :=
  h.emit _ rfl

theorem Inner.invoke {s s' : State} (h : Inner s s') (w : World) (c : Call)
    (hc : isStage c = false) : Inner s (invoke w c s').2 :=
  h.emit _ (by simp [Event.stage?, hc])

theorem Inner.ask {s s' : State} (h : Inner s s') (w : World) (q : Query) :
    Inner s (ask w q s').2 :=
  h.emit _ rfl

theorem CreateDirs_loop_inner (w : World) (dirs : List String) (s₀ s : State) (h : Inner s₀ s) :
    Inner s₀ (CreateDirs.loop w dirs s).2 := by
  induction dirs generalizing s with
  | nil => simpa [CreateDirs.loop] using h
  | cons dir rest ih =>
    unfold CreateDirs.loop
    have hi := h.invoke w (Call.MkdirAll dir) rfl
    split
    next err s' heq => rw [heq] at hi; exact hi.log _ _
    next s' heq => rw [heq] at hi; exact ih s' hi

theorem CreateDirs_inner (w : World) (k : Consts) (p : Package) (s : State) :
    Inner s (CreateDirs w k p s).2 :=
  CreateDirs_loop_inner w _ s s (Inner.refl s)

theorem FetchSources_loop_inner (w : World) (p : Package) (l : List Source) (s₀ s : State)
    (h : Inner s₀ s) : Inner s₀ (FetchSources.loop w p l s) := by
  induction l generalizing s with
  | nil => simpa [FetchSources.loop] using h
  | cons source rest ih =>
    unfold FetchSources.loop
    simp only
    have hq := h.ask w (Query.IsFetched source
      (if p.Type_ = PackageType.XML then source.SHA1Sum else source.SHA256Sum))
    split
    next s' heq => rw [heq] at hq; exact ih s' hq
    next s' heq =>
      rw [heq] at hq
      have hi := (hq.log LogLevel.Info "Downloading source").invoke w (Call.Fetch source) rfl
      split
      next err s'' heq' => rw [heq'] at hi; exact ih _ (hi.log _ _)
      next s'' heq' => rw [heq'] at hi; exact ih _ hi

theorem FetchSources_inner (w : World) (p : Package) (s : State) :
    Inner s (FetchSources w p s).2 :=
  FetchSources_loop_inner w p _ s s (Inner.refl s)

theorem FetchSources_fst (w : World) (p : Package) (s : State) : (FetchSources w p s).1 = none :=
  rfl

theorem CopyAssets_loop_inner (w : World) (k : Consts) (b d : String) (l : List String)
    (s₀ s : State) (h : Inner s₀ s) : Inner s₀ (CopyAssets.loop w k b d l s).2 := by
  induction l generalizing s with
  | nil => simpa [CopyAssets.loop] using h
  | cons path rest ih =>
    unfold CopyAssets.loop
    have hi := h.invoke w (Call.CopyAll (k.Join [b, path]) d) rfl
    split
    next err s' heq => rw [heq] at hi; exact hi
    next s' heq => rw [heq] at hi; exact ih s' hi

theorem CopyAssets_inner (w : World) (k : Consts) (p : Package) (s : State) :
    Inner s (CopyAssets w k p s).2 := by
  unfold CopyAssets
  simp only
  have hi := (Inner.refl s).invoke w (Call.Abs (k.Dir p.Path)) rfl
  split
  next err s' heq => rw [heq] at hi; exact hi
  next s' heq => rw [heq] at hi; exact CopyAssets_loop_inner _ _ _ _ _ _ _ hi

theorem BindSources_loop_inner (w : World) (k : Consts) (p : Package) (l : List Source)
    (s₀ s : State) (h : Inner s₀ s) : Inner s₀ (BindSources.loop w k p l s).2 := by
  induction l generalizing s with
  | nil => simpa [BindSources.loop] using h
  | cons source rest ih =>
    unfold BindSources.loop
    simp only
    have key : ∀ s₁, Inner s₀ s₁ → ∀ tgt loc, Inner s₀
        (match invoke w (Call.TouchFile tgt) (s₁.log LogLevel.Debug "Exposing source to container") with
        | (some _, s) => ((none : GoError), s.log LogLevel.Error "Failed to create bind mount target")
        | (none, s) =>
          match invoke w (Call.BindMount loc tgt "ro") s with
          | (some err, s) => (some err, s.log LogLevel.Error "Failed to bind mount source")
          | (none, s) =>
            BindSources.loop w k p rest
              { s with overlay := { s.overlay with ExtraMounts := s.overlay.ExtraMounts ++ [tgt] } }).2 := by
      intro s₁ h₁ tgt loc
      have hi := (h₁.log LogLevel.Debug "Exposing source to container").invoke w (Call.TouchFile tgt) rfl
      split
      next err s' heq => rw [heq] at hi; exact hi.log _ _
      next s' heq =>
        rw [heq] at hi
        have hj := hi.invoke w (Call.BindMount loc tgt "ro") rfl
        split
        next err s'' heq' => rw [heq'] at hj; exact hj.log _ _
        next s'' heq' =>
          rw [heq'] at hj
          apply ih
          obtain ⟨t, ht, hs, ho⟩ := hj
          exact ⟨t, ht, hs, ho⟩
    have hq := h.ask w (Query.PathExists (GetSourceDir k p s.overlay))
    split
    next s' heq => rw [heq] at hq; exact key _ hq _ _
    next s' heq =>
      rw [heq] at hq
      have hi := hq.invoke w (Call.MkdirAll (GetSourceDir k p s.overlay)) rfl
      split
      next err s'' heq' => rw [heq'] at hi; exact hi.log _ _
      next s'' heq' => rw [heq'] at hi; exact key _ hi _ _

theorem BindSources_inner (w : World) (k : Consts) (p : Package) (s : State) :
    Inner s (BindSources w k p s).2 :=
  BindSources_loop_inner w k p _ s s (Inner.refl s)

/-! ## The stages of `Build` follow the plan -/

theorem followsPlan_done (final : GoError) (pl : List Call) :
    followsPlan final pl (pl.map (fun c => (c, none))) final := by
  induction pl with
  | nil => simp [followsPlan]
  | cons c rest ih => simpa [followsPlan] using ih

theorem followsPlan_fail (final : GoError) (done : List Call) (c : Call) (rest : List Call)
    (err : String) :
    followsPlan final (done ++ c :: rest) (done.map (fun c => (c, none)) ++ [(c, some err)])
      (some err) := by
  induction done with
  | nil => simp [followsPlan]
  | cons d done ih => simpa [followsPlan] using ih

theorem invoke_eq {w : World} {c : Call} {s s' : State} {e : GoError}
    (h : invoke w c s = (e, s')) : s' = s.emit (Event.call c e) := by
  simp only [invoke, Prod.mk.injEq] at h
  rw [← h.2, h.1]

theorem returned_eq {c : Call} {r : GoError × State} {s' : State} {e : GoError}
    (h : returned c r = (e, s')) : s' = r.2.emit (Event.call c e) := by
  simp only [returned, Prod.mk.injEq] at h
  rw [← h.2, h.1]

theorem Progress.start (s : State) : Progress s s [] :=
  ⟨[], by simp, rfl, rfl⟩

theorem Progress.inner {s s' s'' : State} {done : List Call} (h : Progress s s' done)
    (h' : Inner s' s'') : Progress s s'' done := by
  obtain ⟨t, ht, hs, ho⟩ := h
  obtain ⟨t', ht', hs', ho'⟩ := h'
  exact ⟨t ++ t', by simp [ht', ht], by simp [hs, hs'], by rw [ho', ho]⟩

theorem Progress.logged {s s' : State} {done : List Call} (h : Progress s s' done)
    (l : LogLevel) (m : String) : Progress s (s'.log l m) done :=
  h.inner ((Inner.refl s').log l m)

theorem Progress.emitted {s s' : State} {done : List Call} (h : Progress s s' done)
    (e : Event) (he : e.stage? = none) : Progress s (s'.emit e) done :=
  h.inner ((Inner.refl s').emit e he)

theorem Progress.ok {s s' s'' : State} {done : List Call} (h : Progress s s' done)
    (c : Call) (hc : isStage c = true) (heq : s'' = s'.emit (Event.call c none)) :
    Progress s s'' (done ++ [c]) := by
  obtain ⟨t, ht, hs, ho⟩ := h
  subst heq
  exact ⟨t ++ [Event.call c none], by simp [ht], by simp [hs, Event.stage?, hc], by simpa using ho⟩

theorem Progress.fail {s s' s'' s₃ : State} {done : List Call} (h : Progress s s' done)
    (final : GoError) (c : Call) (rest : List Call) (err : String) (hc : isStage c = true)
    (heq : s'' = s'.emit (Event.call c (some err))) (h' : Inner s'' s₃) :
    Finished final (done ++ c :: rest) s (some err, s₃) := by
  obtain ⟨t, ht, hs, ho⟩ := h
  obtain ⟨t', ht', hs', ho'⟩ := h'
  subst heq
  refine ⟨t ++ [Event.call c (some err)] ++ t', by simp [ht', ht], ?_, by simpa [ho'] using ho⟩
  simpa [hs, hs', Event.stage?, hc] using followsPlan_fail final done c rest err

theorem Progress.mount {s s' : State} {done : List Call} (h : Progress s s' done) :
    s'.overlay.MountPoint = s.overlay.MountPoint := by
  obtain ⟨_, _, _, ho⟩ := h
  exact ho

theorem Progress.finish {s s' : State} {done : List Call} (h : Progress s s' done)
    (final : GoError) : Finished final done s (final, s') := by
  obtain ⟨t, ht, hs, ho⟩ := h
  exact ⟨t, ht, by simpa [hs] using followsPlan_done final done, ho⟩

theorem Build_finished (w : World) (k : Consts) (p : Package) (s : State) :
    Finished (some "Not yet implemented") (plan k p s.overlay) s (Build w k p s) := by
  unfold Build
  simp only
  have P0 := (Progress.start s).logged LogLevel.Info "Building package"
  split
  · rename_i err s1 h
    exact P0.fail _ Call.CleanExisting _ err rfl (invoke_eq h) (Inner.refl _)
  rename_i s1 h
  have P1 := P0.ok Call.CleanExisting rfl (invoke_eq h)
  split
  · rename_i err s2 h
    exact P1.fail _ Call.ActivateRoot _ err rfl (invoke_eq h) (Inner.refl _)
  rename_i s2 h
  have P2 := P1.ok Call.ActivateRoot rfl (invoke_eq h)
  split
  · rename_i err s3 h
    exact (P2.inner (CopyAssets_inner w k p s2)).fail _ Call.CopyAssets _ err rfl (returned_eq h)
      ((Inner.refl _).log _ _)
  rename_i s3 h
  have P3 := (P2.inner (CopyAssets_inner w k p s2)).ok Call.CopyAssets rfl (returned_eq h)
  split
  · rename_i err s4 h
    exact ((P3.logged _ _).inner (FetchSources_inner w p _)).fail _ Call.FetchSources _ err rfl
      (returned_eq h) (Inner.refl _)
  rename_i s4 h
  have P4 := ((P3.logged _ _).inner (FetchSources_inner w p _)).ok Call.FetchSources rfl (returned_eq h)
  split
  · rename_i err s5 h
    exact P4.fail _ Call.Init _ err rfl (invoke_eq h) (Inner.refl _)
  rename_i s5 h
  have P5 := P4.ok Call.Init rfl (invoke_eq h)
  split
  · rename_i err s6 h
    exact (P5.logged _ _).fail _ Call.StartDBUS _ err rfl (invoke_eq h) ((Inner.refl _).log _ _)
  rename_i s6 h
  have P6 := (P5.logged _ _).ok Call.StartDBUS rfl (invoke_eq h)
  split
  · rename_i err s7 h
    exact (P6.logged _ _).fail _ Call.Upgrade _ err rfl (invoke_eq h) ((Inner.refl _).log _ _)
  rename_i s7 h
  have P7 := (P6.logged _ _).ok Call.Upgrade rfl (invoke_eq h)
  split
  · rename_i err s8 h
    exact (P7.logged _ _).fail _ (Call.InstallComponent "system.devel") _ err rfl (invoke_eq h)
      ((Inner.refl _).log _ _)
  rename_i s8 h
  have P8 := (P7.logged _ _).ok (Call.InstallComponent "system.devel") rfl (invoke_eq h)
  split
  · rename_i err s9 h
    exact (P8.inner (CreateDirs_inner w k p s8)).fail _ Call.CreateDirs _ err rfl (returned_eq h)
      (Inner.refl _)
  rename_i s9 h
  have P9 := (P8.inner (CreateDirs_inner w k p s8)).ok Call.CreateDirs rfl (returned_eq h)
  split
  · rename_i hT
    have hplan : plan k p s.overlay = commonStages ++ modernStages k p s.overlay := by
      simp [plan, hT]
    rw [hplan]
    have m9 := P9.mount
    split
    · rename_i err s10 h
      simp only [State.log_overlay, m9] at h
      exact (P9.logged _ _).fail _ (Call.ChrootExec s.overlay.MountPoint (depsCommand k p)) _ err rfl
        (invoke_eq h) ((Inner.refl _).log _ _)
    rename_i s10 h
    simp only [State.log_overlay, m9] at h
    have P10 := ((P9.logged _ _).ok (Call.ChrootExec s.overlay.MountPoint (depsCommand k p)) rfl
      (invoke_eq h)).emitted (Event.SetActivePID 0) rfl
    split
    · rename_i err s11 h
      exact (P10.logged _ _).fail _ Call.StopDBUS _ err rfl (invoke_eq h) ((Inner.refl _).log _ _)
    rename_i s11 h
    have P11 := (P10.logged _ _).ok Call.StopDBUS rfl (invoke_eq h)
    have m11 := P11.mount
    split
    · rename_i err s12 h
      simp only [m11] at h
      exact P11.fail _ (Call.ChrootExec s.overlay.MountPoint (chownCommand k)) _ err rfl
        (invoke_eq h) ((Inner.refl _).log _ _)
    rename_i s12 h
    simp only [m11] at h
    have P12 := (P11.ok (Call.ChrootExec s.overlay.MountPoint (chownCommand k)) rfl
      (invoke_eq h)).emitted (Event.SetActivePID 0) rfl
    split
    · rename_i err s13 h
      exact P12.fail _ Call.DropNetworking _ err rfl (invoke_eq h) (Inner.refl _)
    rename_i s13 h
    have P13 := P12.ok Call.DropNetworking rfl (invoke_eq h)
    split
    · rename_i err s14 h
      exact P13.fail _ Call.ConfigureNetworking _ err rfl (invoke_eq h) (Inner.refl _)
    rename_i s14 h
    have P14 := P13.ok Call.ConfigureNetworking rfl (invoke_eq h)
    split
    · rename_i err s15 h
      exact (P14.inner (BindSources_inner w k p s14)).fail _ Call.BindSources _ err rfl
        (returned_eq h) ((Inner.refl _).log _ _)
    rename_i s15 h
    have P15 := (P14.inner (BindSources_inner w k p s14)).ok Call.BindSources rfl (returned_eq h)
    have m15 := P15.mount
    split
    · rename_i err s16 h
      simp only [m15] at h
      exact P15.fail _ (Call.EnsureEopkgLayout s.overlay.MountPoint) _ err rfl (invoke_eq h)
        (Inner.refl _)
    rename_i s16 h
    simp only [m15] at h
    have P16 := P15.ok (Call.EnsureEopkgLayout s.overlay.MountPoint) rfl (invoke_eq h)
    have m16 := P16.mount
    split
    · rename_i err s17 h
      simp only [State.log_overlay, m16] at h
      exact (P16.logged _ _).fail _ (Call.ChrootExec s.overlay.MountPoint (buildCommand k p)) [] err rfl
        (invoke_eq h) ((Inner.refl _).log _ _)
    rename_i s17 h
    simp only [State.log_overlay, m16] at h
    exact (((P16.logged _ _).ok (Call.ChrootExec s.overlay.MountPoint (buildCommand k p)) rfl
      (invoke_eq h)).emitted (Event.SetActivePID 0) rfl).finish _
  · rename_i hT
    have hplan : plan k p s.overlay = commonStages ++ [Call.StopDBUS] := by
      simp [plan, hT]
    rw [hplan]
    split
    · rename_i err s10 h
      exact ((P9.logged _ _).logged _ _).fail _ Call.StopDBUS [] err rfl (invoke_eq h)
        ((Inner.refl _).log _ _)
    rename_i s10 h
    exact (((P9.logged _ _).logged _ _).ok Call.StopDBUS rfl (invoke_eq h)).finish _

theorem Build_follows (w : World) (k : Consts) (p : Package) (s : State) :
    followsPlan (some "Not yet implemented") (plan k p s.overlay)
      (stageCalls (did s (Build w k p s))) (Build w k p s).1 := by
  obtain ⟨t, ht, hf, _⟩ := Build_finished w k p s
  rw [did_eq s _ t ht]
  exact hf

theorem followsPlan_abort (final : GoError) (pl : List Call) (pre post : List (Call × GoError))
    (c : Call) (err : String) (res : GoError)
    (h : followsPlan final pl (pre ++ (c, some err) :: post) res) :
    post = [] ∧ res = some err := by
  induction pl generalizing pre with
  | nil => simp [followsPlan] at h
  | cons c₀ rest ih =>
    cases pre with
    | nil =>
      cases post with
      | nil => simpa [followsPlan] using h.2
      | cons x post => simp [followsPlan] at h
    | cons x pre =>
      obtain ⟨c', e'⟩ := x
      cases e' with
      | none =>
        simp only [List.cons_append, followsPlan] at h
        exact ih pre h.2
      | some e' =>
        cases pre <;> simp [followsPlan] at h

theorem followsPlan_all_ok (final : GoError) (pl : List Call) (sc : List (Call × GoError))
    (res : GoError) (h : followsPlan final pl sc res) (hok : ∀ x ∈ sc, x.2 = none) :
    sc = pl.map (fun c => (c, none)) ∧ res = final := by
  induction pl generalizing sc with
  | nil => simpa [followsPlan] using h
  | cons c₀ rest ih =>
    cases sc with
    | nil => simp [followsPlan] at h
    | cons x sc =>
      obtain ⟨c', e'⟩ := x
      cases e' with
      | none =>
        simp only [followsPlan] at h
        obtain ⟨h1, h2⟩ := ih sc h.2 (fun x hx => hok x (List.mem_cons_of_mem _ hx))
        simp [h.1, h1, h2]
      | some e' =>
        have := hok (c', some e') (List.mem_cons_self _ _)
        simp at this

theorem followsPlan_mem (final : GoError) (pl : List Call) (sc : List (Call × GoError))
    (res : GoError) (h : followsPlan final pl sc res) : ∀ x ∈ sc, x.1 ∈ pl := by
  induction pl generalizing sc with
  | nil =>
    simp only [followsPlan] at h
    simp [h.1]
  | cons c₀ rest ih =>
    cases sc with
    | nil => simp
    | cons x sc =>
      obtain ⟨c', e'⟩ := x
      cases e' with
      | none =>
        simp only [followsPlan] at h
        intro x hx
        rcases List.mem_cons.1 hx with rfl | hx
        · simp [h.1]
        · exact List.mem_cons_of_mem _ (ih sc h.2 x hx)
      | some e' =>
        cases sc with
        | nil =>
          simp only [followsPlan] at h
          simp [h.1]
        | cons y sc => simp [followsPlan] at h

theorem followsPlan_after (final : GoError) (pl₁ pl₂ : List Call) (rest : List (Call × GoError))
    (res : GoError)
    (h : followsPlan final (pl₁ ++ pl₂) (pl₁.map (fun c => (c, none)) ++ rest) res) :
    followsPlan final pl₂ rest res := by
  induction pl₁ with
  | nil => simpa using h
  | cons c pl₁ ih =>
    simp only [List.cons_append, List.map_cons, followsPlan] at h
    exact ih h.2

theorem mem_stageCalls {t : List Event} {c : Call} {err : GoError}
    (h : Event.call c err ∈ t) (hc : isStage c = true) : (c, err) ∈ stageCalls t := by
  simp only [stageCalls, List.mem_filterMap]
  exact ⟨_, h, by simp [Event.stage?, hc]⟩

theorem mem_calls {t : List Event} {c : Call} : c ∈ calls t ↔ ∃ err, Event.call c err ∈ t := by
  simp only [calls, List.mem_filterMap]
  constructor
  · rintro ⟨e, he, h⟩
    cases e <;> simp [Event.call?] at h
    subst h
    exact ⟨_, he⟩
  · rintro ⟨err, h⟩
    exact ⟨_, h, rfl⟩

theorem Build_stage_mem_plan (w : World) (k : Consts) (p : Package) (s : State) (c : Call)
    (hc : isStage c = true) (h : c ∈ calls (did s (Build w k p s))) : c ∈ plan k p s.overlay := by
  obtain ⟨err, he⟩ := mem_calls.1 h
  exact followsPlan_mem _ _ _ _ (Build_follows w k p s) _ (mem_stageCalls he hc)

/-! ## `Build` reads the type, the path and the sources of the package only -/

theorem FetchSources_loop_congr (w : World) (p p' : Package) (hT : p.Type_ = p'.Type_)
    (l : List Source) (s : State) : FetchSources.loop w p l s = FetchSources.loop w p' l s := by
  induction l generalizing s with
  | nil => rfl
  | cons source rest ih =>
    unfold FetchSources.loop
    simp only [hT, ih]

theorem GetSourceDir_congr (k : Consts) (p p' : Package) (hT : p.Type_ = p'.Type_) (o : Overlay) :
    GetSourceDir k p o = GetSourceDir k p' o := by
  simp only [GetSourceDir, GetSourceDirInternal, hT]

theorem GetWorkDirInternal_congr (k : Consts) (p p' : Package) (hT : p.Type_ = p'.Type_) :
    GetWorkDirInternal k p = GetWorkDirInternal k p' := by
  simp only [GetWorkDirInternal, hT]

theorem BindSources_loop_congr (w : World) (k : Consts) (p p' : Package)
    (hT : p.Type_ = p'.Type_) (l : List Source) (s : State) :
    BindSources.loop w k p l s = BindSources.loop w k p' l s := by
  induction l generalizing s with
  | nil => rfl
  | cons source rest ih =>
    unfold BindSources.loop
    simp only [hT, ih, GetSourceDir_congr k p p' hT]

theorem Build_congr (w : World) (k : Consts) (p p' : Package) (hT : p.Type_ = p'.Type_)
    (hP : p.Path = p'.Path) (hS : p.Sources = p'.Sources) (s : State) :
    Build w k p s = Build w k p' s := by
  unfold Build
  simp only [CopyAssets, FetchSources, CreateDirs, BindSources, GetWorkDir, hT, hP, hS,
    FetchSources_loop_congr w p p' hT, BindSources_loop_congr w k p p' hT,
    GetSourceDir_congr k p p' hT, GetWorkDirInternal_congr k p p' hT]

/-! ## `Build` and network access (C1) -/

/-- C1, evaluated on the code: the modern package `nano` declares network access
(`CanNetwork` is true) and every stage succeeds.  `Build` invokes
`DropNetworking` and `Overlay.ConfigureNetworking`, both before the build
command, and logs no warning; `Chroot` of `src/builder/chroot.go`, run on the
same package in the same world, invokes neither and logs the warning. -/
theorem Build_isolates_package_with_network_access :
    nano.Type_ = PackageType.Ypkg ∧ nano.CanNetwork = true ∧
    (stageCalls (did fresh (Build quietWorld exampleConsts nano fresh))).map (fun x => x.1) =
      commonStages ++
        [Call.ChrootExec fresh.overlay.MountPoint (depsCommand exampleConsts nano), Call.StopDBUS,
         Call.ChrootExec fresh.overlay.MountPoint (chownCommand exampleConsts),
         Call.DropNetworking, Call.ConfigureNetworking, Call.BindSources,
         Call.EnsureEopkgLayout fresh.overlay.MountPoint,
         Call.ChrootExec fresh.overlay.MountPoint (buildCommand exampleConsts nano)] ∧
    Event.call Call.DropNetworking none ∈ did fresh (Build quietWorld exampleConsts nano fresh) ∧
    Event.call Call.ConfigureNetworking none ∈ did fresh (Build quietWorld exampleConsts nano fresh) ∧
    Event.log LogLevel.Warning "Package has explicitly requested networking, sandboxing disabled" ∉
      did fresh (Build quietWorld exampleConsts nano fresh) ∧
    Call.DropNetworking ∉ calls (did fresh (Chroot quietWorld exampleConsts nano fresh)) ∧
    Call.ConfigureNetworking ∉ calls (did fresh (Chroot quietWorld exampleConsts nano fresh)) ∧
    Event.log LogLevel.Warning "Package has explicitly requested networking, sandboxing disabled" ∈
      did fresh (Chroot quietWorld exampleConsts nano fresh) := by
  decide

/-- The statement of C1, for every package that declares network access, is
false of `Build`: `nano` above is such a package. -/
theorem Build_isolates_despite_CanNetwork :
    ¬ ∀ (w : World) (k : Consts) (p : Package) (s : State), p.CanNetwork = true →
      Call.DropNetworking ∉ calls (did s (Build w k p s)) ∧
      Call.ConfigureNetworking ∉ calls (did s (Build w k p s)) := by
  intro h
  have h' := h quietWorld exampleConsts nano fresh rfl
  revert h'
  decide

/-- The extent of the defect behind C1: `Build` never reads `CanNetwork`.  It does
the same and returns the same whether the flag is true or false; a package that
is not modern is never isolated; a modern package, with network access declared
or not, gets `DropNetworking` as the next stage once the stages through the
ownership fix have succeeded, and `ConfigureNetworking` after it once that has
succeeded too. -/
theorem Build_network_isolation (w : World) (k : Consts) (p : Package) (s : State) :
    (∀ b : Bool, Build w k { p with CanNetwork := b } s = Build w k p s) ∧
    (p.Type_ ≠ PackageType.Ypkg →
      Call.DropNetworking ∉ calls (did s (Build w k p s)) ∧
      Call.ConfigureNetworking ∉ calls (did s (Build w k p s))) ∧
    (p.Type_ = PackageType.Ypkg → ∀ rest,
      stageCalls (did s (Build w k p s)) =
        (commonStages ++ [Call.ChrootExec s.overlay.MountPoint (depsCommand k p), Call.StopDBUS,
          Call.ChrootExec s.overlay.MountPoint (chownCommand k)]).map (fun c => (c, none)) ++ rest →
      ∃ e rest', rest = (Call.DropNetworking, e) :: rest' ∧
        (e = none → ∃ e' rest'', rest' = (Call.ConfigureNetworking, e') :: rest'')) := by
  refine ⟨fun b => Build_congr w k { p with CanNetwork := b } p rfl rfl rfl s, fun hT => ?_,
    fun hT rest h => ?_⟩
  · have hplan : plan k p s.overlay = commonStages ++ [Call.StopDBUS] := by simp [plan, hT]
    constructor
    · intro hmem
      have := Build_stage_mem_plan w k p s Call.DropNetworking rfl hmem
      rw [hplan] at this
      revert this
      decide
    · intro hmem
      have := Build_stage_mem_plan w k p s Call.ConfigureNetworking rfl hmem
      rw [hplan] at this
      revert this
      decide
  · have hf := Build_follows w k p s
    have hplan : plan k p s.overlay =
        (commonStages ++ [Call.ChrootExec s.overlay.MountPoint (depsCommand k p), Call.StopDBUS,
          Call.ChrootExec s.overlay.MountPoint (chownCommand k)]) ++
        [Call.DropNetworking, Call.ConfigureNetworking, Call.BindSources,
          Call.EnsureEopkgLayout s.overlay.MountPoint,
          Call.ChrootExec s.overlay.MountPoint (buildCommand k p)] := by
      simp [plan, hT, modernStages]
    rw [hplan, h] at hf
    have hr := followsPlan_after _ _ _ _ _ hf
    match rest, hr with
    | [], hr => simp [followsPlan] at hr
    | (c, none) :: rest', hr =>
      simp only [followsPlan] at hr
      refine ⟨none, rest', by rw [hr.1], fun _ => ?_⟩
      match rest', hr.2 with
      | [], hr' => simp [followsPlan] at hr'
      | (c', none) :: rest'', hr' =>
        simp only [followsPlan] at hr'
        exact ⟨none, rest'', by rw [hr'.1]⟩
      | [(c', some e')], hr' =>
        simp only [followsPlan] at hr'
        exact ⟨some e', [], by rw [hr'.1]⟩
      | (c', some e') :: y :: rest'', hr' => simp [followsPlan] at hr'
    | [(c, some e)], hr =>
      simp only [followsPlan] at hr
      exact ⟨some e, [], by rw [hr.1], fun h => by simp at h⟩
    | (c, some e) :: y :: rest', hr => simp [followsPlan] at hr

/-- The extent of the defect at concrete inputs: the legacy package `pspec` is
never isolated, and for the modern package `nano`, which declares network access,
`DropNetworking` and `ConfigureNetworking` follow the ownership fix. -/
theorem Build_network_isolation_witness :
    (Call.DropNetworking ∉ calls (did fresh (Build quietWorld exampleConsts pspec fresh)) ∧
      Call.ConfigureNetworking ∉ calls (did fresh (Build quietWorld exampleConsts pspec fresh))) ∧
    ∃ (e : GoError) (rest' : List (Call × GoError)),
      [(Call.DropNetworking, (none : GoError)), (Call.ConfigureNetworking, none),
        (Call.BindSources, none), (Call.EnsureEopkgLayout fresh.overlay.MountPoint, none),
        (Call.ChrootExec fresh.overlay.MountPoint (buildCommand exampleConsts nano), none)]
          = (Call.DropNetworking, e) :: rest' ∧
        (e = none → ∃ e' rest'', rest' = (Call.ConfigureNetworking, e') :: rest'') :=
  ⟨(Build_network_isolation quietWorld exampleConsts pspec fresh).2.1 (by decide),
   (Build_network_isolation quietWorld exampleConsts nano fresh).2.2 (by decide) _ (by decide)⟩

/-! ## `BindSources` (C3) -/

/-- C3, evaluated on the code: `nano` has one source and creating its placeholder
fails (`TouchFile` returns an error).  `BindSources` makes no bind mount, adds
nothing to `ExtraMounts`, and returns nil. -/
theorem BindSources_nil_on_TouchFile_failure :
    Event.call (Call.TouchFile touchTarget) (some "permission denied") ∈
      (BindSources (failingWorld (Call.TouchFile touchTarget) "permission denied")
        exampleConsts nano fresh).2.trace ∧
    calls (BindSources (failingWorld (Call.TouchFile touchTarget) "permission denied")
        exampleConsts nano fresh).2.trace = [Call.TouchFile touchTarget] ∧
    (BindSources (failingWorld (Call.TouchFile touchTarget) "permission denied")
        exampleConsts nano fresh).2.overlay.ExtraMounts = [] ∧
    (BindSources (failingWorld (Call.TouchFile touchTarget) "permission denied")
        exampleConsts nano fresh).1 = none := by
  decide

/-! ## `FetchSources` (C4) -/

theorem fetchTests_append (t u : List Event) : fetchTests (t ++ u) = fetchTests t ++ fetchTests u := by
  simp [fetchTests]

theorem fetches_append (t u : List Event) : fetches (t ++ u) = fetches t ++ fetches u := by
  simp [fetches]

theorem fetch_step (p : Package) (source : Source) (rest : List Source) (a : Bool)
    (head t : List Event)
    (h1 : fetchTests head = [(source, expHash p source, a)])
    (h2 : fetches head = if a then [] else [source])
    (h3 : (fetchTests t).map (fun x => (x.1, x.2.1)) = rest.map (fun source => (source, expHash p source)))
    (h4 : fetches t = ((fetchTests t).filter (fun x => !x.2.2)).map (fun x => x.1)) :
    (fetchTests (head ++ t)).map (fun x => (x.1, x.2.1)) =
        (source :: rest).map (fun source => (source, expHash p source)) ∧
      fetches (head ++ t) = ((fetchTests (head ++ t)).filter (fun x => !x.2.2)).map (fun x => x.1) := by
  rw [fetchTests_append, fetches_append, h1, h2, h4]
  cases a <;> simp [h3]

theorem FetchSources_loop_spec (w : World) (p : Package) (l : List Source) (s : State) :
    ∃ t, (FetchSources.loop w p l s).trace = s.trace ++ t ∧
      (fetchTests t).map (fun x => (x.1, x.2.1)) = l.map (fun source => (source, expHash p source)) ∧
      fetches t = ((fetchTests t).filter (fun x => !x.2.2)).map (fun x => x.1) := by
  induction l generalizing s with
  | nil => exact ⟨[], by simp [FetchSources.loop], rfl, rfl⟩
  | cons source rest ih =>
    unfold FetchSources.loop
    simp only
    split
    · rename_i s1 h
      obtain ⟨t, ht, h3, h4⟩ := ih s1
      simp only [ask, Prod.mk.injEq] at h
      refine ⟨[Event.test (Query.IsFetched source (expHash p source)) true] ++ t, ?_,
        fetch_step p source rest true _ t rfl rfl h3 h4⟩
      rw [ht, ← h.2, h.1]
      simp [expHash]
    · rename_i s1 h
      simp only [ask, Prod.mk.injEq] at h
      split
      · rename_i err s2 h'
        obtain ⟨t, ht, h3, h4⟩ := ih (s2.log LogLevel.Error "Failed to fetch source")
        refine ⟨[Event.test (Query.IsFetched source (expHash p source)) false,
          Event.log LogLevel.Info "Downloading source", Event.call (Call.Fetch source) (some err),
          Event.log LogLevel.Error "Failed to fetch source"] ++ t, ?_,
          fetch_step p source rest false _ t rfl rfl h3 h4⟩
        rw [ht, invoke_eq h', ← h.2, h.1]
        simp [expHash]
      · rename_i s2 h'
        obtain ⟨t, ht, h3, h4⟩ := ih s2
        refine ⟨[Event.test (Query.IsFetched source (expHash p source)) false,
          Event.log LogLevel.Info "Downloading source", Event.call (Call.Fetch source) none] ++ t, ?_,
          fetch_step p source rest false _ t rfl rfl h3 h4⟩
        rw [ht, invoke_eq h', ← h.2, h.1]
        simp [expHash]

/-- C4: `FetchSources` asks `IsFetched` once for every declared source, in
declaration order and with the hash expected for the recipe type; the `Fetch`
calls it makes are exactly, in that order, the sources for which the answer was
no (whatever each `Fetch` returned); and it returns nil. -/
theorem FetchSources_fetches_absent_sources (w : World) (p : Package) (s : State) :
    (fetchTests (did s (FetchSources w p s))).map (fun x => (x.1, x.2.1)) =
        p.Sources.map (fun source => (source, expHash p source)) ∧
      fetches (did s (FetchSources w p s)) =
        ((fetchTests (did s (FetchSources w p s))).filter (fun x => !x.2.2)).map (fun x => x.1) ∧
      (FetchSources w p s).1 = none := by
  obtain ⟨t, ht, h1, h2⟩ := FetchSources_loop_spec w p p.Sources s
  have hd : did s (FetchSources w p s) = t := did_eq s _ t ht
  rw [hd]
  exact ⟨h1, h2, rfl⟩

/-! ## The stages of `Build` (C5, C6, C7) -/

/-- C5: whichever stage of `Build` returns an error (`CleanExisting`,
`ActivateRoot`, `CopyAssets`, `Init`, `StartDBUS`, `Upgrade`, `InstallComponent`,
`CreateDirs`, a `ChrootExec`, `StopDBUS`, `DropNetworking`, `ConfigureNetworking`,
`BindSources`, `EnsureEopkgLayout`), no stage is invoked after it and `Build`
returns that same error. -/
theorem Build_stops_at_first_error (w : World) (k : Consts) (p : Package) (s : State)
    (pre post : List (Call × GoError)) (c : Call) (err : String)
    (h : stageCalls (did s (Build w k p s)) = pre ++ (c, some err) :: post) :
    post = [] ∧ (Build w k p s).1 = some err := by
  have hf := Build_follows w k p s
  rw [h] at hf
  exact followsPlan_abort _ _ _ _ _ _ _ hf

/-- C5 at a concrete input: `Upgrade` fails for `nano`; the six stages before it
were invoked, none after it, and `Build` returns the error of `Upgrade`. -/
theorem Build_stops_at_first_error_witness :
    ([] : List (Call × GoError)) = [] ∧
      (Build (failingWorld Call.Upgrade "upgrade failed") exampleConsts nano fresh).1
        = some "upgrade failed" :=
  Build_stops_at_first_error (failingWorld Call.Upgrade "upgrade failed") exampleConsts nano fresh
    [(Call.CleanExisting, none), (Call.ActivateRoot, none), (Call.CopyAssets, none),
      (Call.FetchSources, none), (Call.Init, none), (Call.StartDBUS, none)]
    [] Call.Upgrade "upgrade failed" (by decide)

/-- The order of the stages that C6 states holds: for a modern (ypkg) package for
which every stage succeeds, the stages `Build` invokes are the common ones up to
`CreateDirs` and then exactly, in this order: the build-dependency install
command, `StopDBUS`, the ownership fix of the build-user home, `DropNetworking`,
`ConfigureNetworking`, `BindSources`, `EnsureEopkgLayout`, and last the build
command run as the build user.  That the stage `BindSources` has returned nil
does not mean that the sources are bound: see
`Build_runs_build_command_without_sources`. -/
theorem Build_modern_stage_order (w : World) (k : Consts) (p : Package) (s : State)
    (hT : p.Type_ = PackageType.Ypkg)
    (hok : ∀ x ∈ stageCalls (did s (Build w k p s)), x.2 = none) :
    (stageCalls (did s (Build w k p s))).map (fun x => x.1) =
      [Call.CleanExisting, Call.ActivateRoot, Call.CopyAssets, Call.FetchSources, Call.Init,
        Call.StartDBUS, Call.Upgrade, Call.InstallComponent "system.devel", Call.CreateDirs,
        Call.ChrootExec s.overlay.MountPoint
          ("ypkg-install-deps -f " ++ k.Join [GetWorkDirInternal k p, k.Base p.Path]),
        Call.StopDBUS,
        Call.ChrootExec s.overlay.MountPoint
          ("chown -R " ++ k.BuildUser ++ ":" ++ k.BuildUser ++ " " ++ k.BuildUserHome),
        Call.DropNetworking,
        Call.ConfigureNetworking,
        Call.BindSources,
        Call.EnsureEopkgLayout s.overlay.MountPoint,
        Call.ChrootExec s.overlay.MountPoint
          ("/bin/su - " ++ k.BuildUser ++ " -- fakeroot ypkg-build -D " ++ GetWorkDirInternal k p
            ++ " " ++ k.Join [GetWorkDirInternal k p, k.Base p.Path])] := by
  obtain ⟨h, _⟩ := followsPlan_all_ok _ _ _ _ (Build_follows w k p s) hok
  rw [h]
  simp [plan, hT, commonStages, modernStages, depsCommand, chownCommand, buildCommand]

/-- The order of the stages at a concrete input: every stage succeeds for the
modern package `nano`. -/
theorem Build_modern_stage_order_witness :
    (stageCalls (did fresh (Build quietWorld exampleConsts nano fresh))).map (fun x => x.1) =
      [Call.CleanExisting, Call.ActivateRoot, Call.CopyAssets, Call.FetchSources, Call.Init,
        Call.StartDBUS, Call.Upgrade, Call.InstallComponent "system.devel", Call.CreateDirs,
        Call.ChrootExec "/var/cache/solbuild/unstable/union"
          "ypkg-install-deps -f /home/build/work/package.yml",
        Call.StopDBUS,
        Call.ChrootExec "/var/cache/solbuild/unstable/union" "chown -R build:build /home/build",
        Call.DropNetworking,
        Call.ConfigureNetworking,
        Call.BindSources,
        Call.EnsureEopkgLayout "/var/cache/solbuild/unstable/union",
        Call.ChrootExec "/var/cache/solbuild/unstable/union"
          "/bin/su - build -- fakeroot ypkg-build -D /home/build/work /home/build/work/package.yml"] :=
  Build_modern_stage_order quietWorld exampleConsts nano fresh rfl (by decide)

/-- C6, evaluated on the code: for the modern package `nano` every call succeeds
except `TouchFile` on the placeholder of its source.  `BindSources` returns nil,
so every stage of `Build` succeeds and they come in the order of the claim; no
bind mount is attempted and `ExtraMounts` stays empty; and the build command is
run all the same, on sources that are not bound. -/
theorem Build_runs_build_command_without_sources :
    (∀ x ∈ stageCalls (did fresh
        (Build (failingWorld (Call.TouchFile touchTarget) "permission denied") exampleConsts nano
          fresh)), x.2 = none) ∧
    (stageCalls (did fresh
        (Build (failingWorld (Call.TouchFile touchTarget) "permission denied") exampleConsts nano
          fresh))).map (fun x => x.1) =
      commonStages ++
        [Call.ChrootExec fresh.overlay.MountPoint (depsCommand exampleConsts nano), Call.StopDBUS,
         Call.ChrootExec fresh.overlay.MountPoint (chownCommand exampleConsts),
         Call.DropNetworking, Call.ConfigureNetworking, Call.BindSources,
         Call.EnsureEopkgLayout fresh.overlay.MountPoint,
         Call.ChrootExec fresh.overlay.MountPoint (buildCommand exampleConsts nano)] ∧
    Event.call (Call.TouchFile touchTarget) (some "permission denied") ∈
      did fresh (Build (failingWorld (Call.TouchFile touchTarget) "permission denied")
        exampleConsts nano fresh) ∧
    bindMounts (did fresh (Build (failingWorld (Call.TouchFile touchTarget) "permission denied")
        exampleConsts nano fresh)) = [] ∧
    (Build (failingWorld (Call.TouchFile touchTarget) "permission denied") exampleConsts nano
        fresh).2.overlay.ExtraMounts = [] ∧
    Event.call (Call.ChrootExec fresh.overlay.MountPoint (buildCommand exampleConsts nano)) none ∈
      did fresh (Build (failingWorld (Call.TouchFile touchTarget) "permission denied")
        exampleConsts nano fresh) := by
  decide

/-- C7: for a legacy (XML) package `Build` never invokes `DropNetworking`,
`Overlay.ConfigureNetworking`, `BindSources` or any command through `ChrootExec`
(so no build-user command); and when the common stages up to `CreateDirs` have
succeeded, the only further stage it invokes is `StopDBUS`. -/
theorem Build_legacy_no_sandboxing (w : World) (k : Consts) (p : Package) (s : State)
    (hT : p.Type_ = PackageType.XML) :
    (∀ c ∈ calls (did s (Build w k p s)),
      c ≠ Call.DropNetworking ∧ c ≠ Call.ConfigureNetworking ∧ c ≠ Call.BindSources ∧
      ∀ root command, c ≠ Call.ChrootExec root command) ∧
    (∀ rest, stageCalls (did s (Build w k p s)) =
        [(Call.CleanExisting, none), (Call.ActivateRoot, none), (Call.CopyAssets, none),
          (Call.FetchSources, none), (Call.Init, none), (Call.StartDBUS, none),
          (Call.Upgrade, none), (Call.InstallComponent "system.devel", none),
          (Call.CreateDirs, none)] ++ rest →
      ∃ e, rest = [(Call.StopDBUS, e)]) := by
  have hplan : plan k p s.overlay = commonStages ++ [Call.StopDBUS] := by simp [plan, hT]
  constructor
  · intro c hc
    have hmem : isStage c = true → c ∈ commonStages ++ [Call.StopDBUS] := fun hs =>
      hplan ▸ Build_stage_mem_plan w k p s c hs hc
    refine ⟨?_, ?_, ?_, ?_⟩
    · rintro rfl
      exact absurd (hmem rfl) (by decide)
    · rintro rfl
      exact absurd (hmem rfl) (by decide)
    · rintro rfl
      exact absurd (hmem rfl) (by decide)
    · rintro root command rfl
      have := hmem rfl
      simp [commonStages] at this
  · intro rest h
    have hf := Build_follows w k p s
    rw [hplan, h] at hf
    have hr := followsPlan_after _ commonStages [Call.StopDBUS] rest _ hf
    match rest, hr with
    | [], hr => simp [followsPlan] at hr
    | (c, none) :: rest', hr =>
      simp only [followsPlan] at hr
      exact ⟨none, by rw [hr.1, hr.2.1]⟩
    | [(c, some e)], hr =>
      simp only [followsPlan] at hr
      exact ⟨some e, by rw [hr.1]⟩
    | (c, some e) :: y :: rest', hr => simp [followsPlan] at hr

/-- C7 at a concrete input: every stage succeeds for the legacy package `pspec`;
after `CreateDirs` only `StopDBUS` is invoked. -/
theorem Build_legacy_no_sandboxing_witness :
    (∀ c ∈ calls (did fresh (Build quietWorld exampleConsts pspec fresh)),
      c ≠ Call.DropNetworking ∧ c ≠ Call.ConfigureNetworking ∧ c ≠ Call.BindSources ∧
      ∀ root command, c ≠ Call.ChrootExec root command) ∧
    ∃ e, [(Call.StopDBUS, (none : GoError))] = [(Call.StopDBUS, e)] :=
  ⟨(Build_legacy_no_sandboxing quietWorld exampleConsts pspec fresh rfl).1,
   (Build_legacy_no_sandboxing quietWorld exampleConsts pspec fresh rfl).2 _ (by decide)⟩

/-! ## `Chroot` of `src/builder/chroot.go` (C2, C8) -/

@[simp] theorem callResults_nil : callResults [] = [] := rfl

@[simp] theorem callResults_append (t u : List Event) :
    callResults (t ++ u) = callResults t ++ callResults u := by
  simp [callResults]

@[simp] theorem callResults_cons (e : Event) (t : List Event) :
    callResults (e :: t) = (e.result?).toList ++ callResults t := by
  cases h : e.result? <;> simp [callResults, List.filterMap_cons, h]

theorem Chroot_cases (w : World) (k : Consts) (p : Package) (s : State) :
    (Chroot w k p s).2.ChrootEnvironment =
      (if p.Type_ = PackageType.XML then k.SaneEnvironment "root" "/root"
        else k.SaneEnvironment k.BuildUser k.BuildUserHome) ∧
    ((∃ err, callResults (did s (Chroot w k p s)) = [(Call.ActivateRoot, some err)] ∧
        (Chroot w k p s).1 = some err) ∨
     (p.Type_ = PackageType.Ypkg ∧ p.CanNetwork = false ∧
        ((∃ err, callResults (did s (Chroot w k p s)) =
            [(Call.ActivateRoot, none), (Call.DropNetworking, some err)] ∧
            (Chroot w k p s).1 = some err) ∨
         (∃ err, callResults (did s (Chroot w k p s)) =
            [(Call.ActivateRoot, none), (Call.DropNetworking, none),
              (Call.ConfigureNetworking, some err)] ∧
            (Chroot w k p s).1 = some err) ∨
         (∃ e, callResults (did s (Chroot w k p s)) =
            [(Call.ActivateRoot, none), (Call.DropNetworking, none),
              (Call.ConfigureNetworking, none),
              (Call.ChrootExecStdin s.overlay.MountPoint
                (loginCommand k (if p.Type_ = PackageType.XML then "root" else k.BuildUser)), e)] ∧
            (Chroot w k p s).1 = e))) ∨
     ((p.Type_ ≠ PackageType.Ypkg ∨ p.CanNetwork = true) ∧
        ∃ e, callResults (did s (Chroot w k p s)) =
            [(Call.ActivateRoot, none),
              (Call.ChrootExecStdin s.overlay.MountPoint
                (loginCommand k (if p.Type_ = PackageType.XML then "root" else k.BuildUser)), e)] ∧
            (Chroot w k p s).1 = e)) := by
  unfold Chroot
  simp only [invoke]
  cases h1 : w.outcome (s.trace ++ [Event.log LogLevel.Debug "Beginning chroot"]) Call.ActivateRoot with
  | some err => simp [did, h1, Event.result?, State.log, State.emit]
  | none =>
    by_cases hT : p.Type_ = PackageType.Ypkg
    · cases hN : p.CanNetwork with
      | true => simp [did, h1, hT, hN, Event.result?, State.log, State.emit, loginCommand]
      | false =>
        cases h2 : w.outcome (s.trace ++ [Event.log LogLevel.Debug "Beginning chroot",
            Event.call Call.ActivateRoot none]) Call.DropNetworking with
        | some err => simp [did, h1, h2, hT, hN, Event.result?, State.log, State.emit]
        | none =>
          cases h3 : w.outcome (s.trace ++ [Event.log LogLevel.Debug "Beginning chroot",
              Event.call Call.ActivateRoot none, Event.call Call.DropNetworking none])
              Call.ConfigureNetworking with
          | some err => simp [did, h1, h2, h3, hT, hN, Event.result?, State.log, State.emit]
          | none => simp [did, h1, h2, h3, hT, hN, Event.result?, State.log, State.emit, loginCommand]
    · simp [did, h1, hT, Event.result?, State.log, State.emit, loginCommand]

theorem calls_eq_map_callResults (t : List Event) : calls t = (callResults t).map (fun x => x.1) := by
  induction t with
  | nil => rfl
  | cons e t ih =>
    cases e <;> simp [Event.call?, Event.result?, ih]

/-- C2, as stated, fails: for the legacy package `pspec`, which does not request
network access, root activation succeeds and `Chroot` spawns the login shell
without invoking `DropNetworking` or `Overlay.ConfigureNetworking`. -/
theorem Chroot_legacy_keeps_network :
    ¬ ∀ (w : World) (k : Consts) (p : Package) (s : State),
      (Call.ActivateRoot, none) ∈ callResults (did s (Chroot w k p s)) →
      (p.CanNetwork = false →
        Call.DropNetworking ∈ calls (did s (Chroot w k p s)) ∧
        Call.ConfigureNetworking ∈ calls (did s (Chroot w k p s))) ∧
      (p.CanNetwork = true →
        Call.DropNetworking ∉ calls (did s (Chroot w k p s)) ∧
        Call.ConfigureNetworking ∉ calls (did s (Chroot w k p s))) := by
  intro h
  have h' := (h quietWorld exampleConsts pspec fresh (by decide)).1 rfl
  revert h'
  decide

/-- C2, amended: in `Chroot`, after a successful root activation, a modern (ypkg)
package that does not request network access gets `DropNetworking` first, then
`ConfigureNetworking` if `DropNetworking` succeeded, and the login shell only
after both succeeded; a package that requests network access, or that is not
modern, gets neither and the login shell is spawned right after the activation. -/
theorem Chroot_network_isolation (w : World) (k : Consts) (p : Package) (s : State)
    (rest : List (Call × GoError))
    (h : callResults (did s (Chroot w k p s)) = (Call.ActivateRoot, none) :: rest) :
    (p.Type_ = PackageType.Ypkg ∧ p.CanNetwork = false →
      (∃ err, rest = [(Call.DropNetworking, some err)]) ∨
      (∃ err, rest = [(Call.DropNetworking, none), (Call.ConfigureNetworking, some err)]) ∨
      (∃ e, rest = [(Call.DropNetworking, none), (Call.ConfigureNetworking, none),
        (Call.ChrootExecStdin s.overlay.MountPoint
          (loginCommand k (if p.Type_ = PackageType.XML then "root" else k.BuildUser)), e)])) ∧
    (p.Type_ ≠ PackageType.Ypkg ∨ p.CanNetwork = true →
      ∃ e, rest = [(Call.ChrootExecStdin s.overlay.MountPoint
          (loginCommand k (if p.Type_ = PackageType.XML then "root" else k.BuildUser)), e)]) := by
  obtain ⟨-, hc⟩ := Chroot_cases w k p s
  rw [h] at hc
  rcases hc with ⟨err, hc, -⟩ | ⟨hT, hN, hc⟩ | ⟨hTN, e, hc, -⟩
  · simp at hc
  · refine ⟨fun _ => ?_, fun h' => ?_⟩
    · rcases hc with ⟨err, hc, -⟩ | ⟨err, hc, -⟩ | ⟨e, hc, -⟩
      · exact Or.inl ⟨err, by simpa using hc⟩
      · exact Or.inr (Or.inl ⟨err, by simpa using hc⟩)
      · exact Or.inr (Or.inr ⟨e, by simpa using hc⟩)
    · rcases h' with h' | h'
      · exact absurd hT h'
      · rw [hN] at h'
        exact absurd h' (by decide)
  · refine ⟨fun h' => ?_, fun _ => ⟨e, by simpa using hc⟩⟩
    rcases hTN with hTN | hTN
    · exact absurd h'.1 hTN
    · rw [h'.2] at hTN
      exact absurd hTN (by decide)

/-- The amended C2 at concrete inputs: `nano` with `CanNetwork` switched off is
isolated before the shell, and the legacy `pspec` goes straight to the shell. -/
theorem Chroot_network_isolation_witness :
    ((∃ err, [(Call.DropNetworking, (none : GoError)), (Call.ConfigureNetworking, none),
          (Call.ChrootExecStdin "/var/cache/solbuild/unstable/union" "/bin/su - build -s /bin/bash",
            none)] = [(Call.DropNetworking, some err)]) ∨
      (∃ err, [(Call.DropNetworking, (none : GoError)), (Call.ConfigureNetworking, none),
          (Call.ChrootExecStdin "/var/cache/solbuild/unstable/union" "/bin/su - build -s /bin/bash",
            none)] = [(Call.DropNetworking, none), (Call.ConfigureNetworking, some err)]) ∨
      (∃ e, [(Call.DropNetworking, (none : GoError)), (Call.ConfigureNetworking, none),
          (Call.ChrootExecStdin "/var/cache/solbuild/unstable/union" "/bin/su - build -s /bin/bash",
            none)] = [(Call.DropNetworking, none), (Call.ConfigureNetworking, none),
          (Call.ChrootExecStdin fresh.overlay.MountPoint
            (loginCommand exampleConsts
              (if ({ nano with CanNetwork := false } : Package).Type_ = PackageType.XML then "root"
                else exampleConsts.BuildUser)), e)])) ∧
    (∃ e, [(Call.ChrootExecStdin "/var/cache/solbuild/unstable/union" "/bin/su - root -s /bin/bash",
          (none : GoError))] = [(Call.ChrootExecStdin fresh.overlay.MountPoint
            (loginCommand exampleConsts
              (if pspec.Type_ = PackageType.XML then "root" else exampleConsts.BuildUser)), e)]) :=
  ⟨(Chroot_network_isolation quietWorld exampleConsts { nano with CanNetwork := false } fresh _
      (by decide)).1 ⟨rfl, rfl⟩,
   (Chroot_network_isolation quietWorld exampleConsts pspec fresh _ (by decide)).2
      (Or.inl (by decide))⟩

/-- C8: in `Chroot` the identity of the session is fixed by the recipe type: for a
legacy (XML) package the environment is `SaneEnvironment("root", "/root")`, every
login command issued logs in as root, and the login as root is issued whenever
the calls before it (`ActivateRoot`, `DropNetworking`, `ConfigureNetworking`, as
far as they are made) succeed; for every other package the environment is
`SaneEnvironment(BuildUser, BuildUserHome)`, every login command issued logs in
as `BuildUser`, and that login is issued under the same condition; so for every
package the user of the environment and the user of the login command are the
same. -/
theorem Chroot_session_identity (w : World) (k : Consts) (p : Package) (s : State) :
    (p.Type_ = PackageType.XML →
      (Chroot w k p s).2.ChrootEnvironment = k.SaneEnvironment "root" "/root" ∧
      (∀ root command, Call.ChrootExecStdin root command ∈ calls (did s (Chroot w k p s)) →
        command = "/bin/su - root -s " ++ k.BuildUserShell) ∧
      ((∀ x ∈ callResults (did s (Chroot w k p s)),
          x.1 ∈ [Call.ActivateRoot, Call.DropNetworking, Call.ConfigureNetworking] → x.2 = none) →
        Call.ChrootExecStdin s.overlay.MountPoint ("/bin/su - root -s " ++ k.BuildUserShell) ∈
          calls (did s (Chroot w k p s)))) ∧
    (p.Type_ ≠ PackageType.XML →
      (Chroot w k p s).2.ChrootEnvironment = k.SaneEnvironment k.BuildUser k.BuildUserHome ∧
      (∀ root command, Call.ChrootExecStdin root command ∈ calls (did s (Chroot w k p s)) →
        command = "/bin/su - " ++ k.BuildUser ++ " -s " ++ k.BuildUserShell) ∧
      ((∀ x ∈ callResults (did s (Chroot w k p s)),
          x.1 ∈ [Call.ActivateRoot, Call.DropNetworking, Call.ConfigureNetworking] → x.2 = none) →
        Call.ChrootExecStdin s.overlay.MountPoint
            ("/bin/su - " ++ k.BuildUser ++ " -s " ++ k.BuildUserShell) ∈
          calls (did s (Chroot w k p s)))) ∧
    (∃ user home, (Chroot w k p s).2.ChrootEnvironment = k.SaneEnvironment user home ∧
      (∀ root command, Call.ChrootExecStdin root command ∈ calls (did s (Chroot w k p s)) →
        command = "/bin/su - " ++ user ++ " -s " ++ k.BuildUserShell) ∧
      ((∀ x ∈ callResults (did s (Chroot w k p s)),
          x.1 ∈ [Call.ActivateRoot, Call.DropNetworking, Call.ConfigureNetworking] → x.2 = none) →
        Call.ChrootExecStdin s.overlay.MountPoint ("/bin/su - " ++ user ++ " -s " ++ k.BuildUserShell) ∈
          calls (did s (Chroot w k p s)))) := by
  obtain ⟨henv, hc⟩ := Chroot_cases w k p s
  have hlogin : ∀ root command, Call.ChrootExecStdin root command ∈ calls (did s (Chroot w k p s)) →
      command = loginCommand k (if p.Type_ = PackageType.XML then "root" else k.BuildUser) := by
    intro root command hmem
    rw [calls_eq_map_callResults] at hmem
    rcases hc with ⟨err, hc, -⟩ | ⟨-, -, ⟨err, hc, -⟩ | ⟨err, hc, -⟩ | ⟨e, hc, -⟩⟩ | ⟨-, e, hc, -⟩ <;>
      rw [hc] at hmem <;> simp at hmem
    · exact hmem.2
    · exact hmem.2
  have hissued : (∀ x ∈ callResults (did s (Chroot w k p s)),
        x.1 ∈ [Call.ActivateRoot, Call.DropNetworking, Call.ConfigureNetworking] → x.2 = none) →
      Call.ChrootExecStdin s.overlay.MountPoint
          (loginCommand k (if p.Type_ = PackageType.XML then "root" else k.BuildUser)) ∈
        calls (did s (Chroot w k p s)) := by
    intro hok
    rw [calls_eq_map_callResults]
    rcases hc with ⟨err, hc, -⟩ | ⟨-, -, ⟨err, hc, -⟩ | ⟨err, hc, -⟩ | ⟨e, hc, -⟩⟩ | ⟨-, e, hc, -⟩
    · have := hok (Call.ActivateRoot, some err) (by rw [hc]; simp) (by simp)
      simp at this
    · have := hok (Call.DropNetworking, some err) (by rw [hc]; simp) (by simp)
      simp at this
    · have := hok (Call.ConfigureNetworking, some err) (by rw [hc]; simp) (by simp)
      simp at this
    · rw [hc]
      simp
    · rw [hc]
      simp
  refine ⟨fun hT => ?_, fun hT => ?_, ?_⟩
  · rw [if_pos hT] at henv hlogin hissued
    refine ⟨henv, fun root command hmem => ?_, fun hok => ?_⟩
    · rw [hlogin root command hmem]
      simp [loginCommand]
    · simpa [loginCommand] using hissued hok
  · rw [if_neg hT] at henv hlogin hissued
    refine ⟨henv, fun root command hmem => ?_, fun hok => ?_⟩
    · rw [hlogin root command hmem]
      simp [loginCommand]
    · simpa [loginCommand] using hissued hok
  · by_cases hT : p.Type_ = PackageType.XML
    · rw [if_pos hT] at henv hlogin hissued
      refine ⟨"root", "/root", henv, fun root command hmem => ?_, fun hok => ?_⟩
      · rw [hlogin root command hmem]
        simp [loginCommand]
      · simpa [loginCommand] using hissued hok
    · rw [if_neg hT] at henv hlogin hissued
      refine ⟨k.BuildUser, k.BuildUserHome, henv, fun root command hmem => ?_, fun hok => ?_⟩
      · rw [hlogin root command hmem]
        simp [loginCommand]
      · simpa [loginCommand] using hissued hok

/-- C8 at concrete inputs, every call succeeding.  For the legacy `pspec`,
`Chroot` sets the root environment and issues the login command of root; for
the modern `nano`, with network access declared or switched off (so that the
isolation calls are made), it sets the environment of the build user and issues
the login command of the build user. -/
theorem Chroot_session_identity_witness :
    ((Chroot quietWorld exampleConsts pspec fresh).2.ChrootEnvironment
        = exampleConsts.SaneEnvironment "root" "/root" ∧
      Call.ChrootExecStdin fresh.overlay.MountPoint ("/bin/su - root -s " ++ exampleConsts.BuildUserShell)
        ∈ calls (did fresh (Chroot quietWorld exampleConsts pspec fresh)) ∧
      "/bin/su - root -s /bin/bash" = "/bin/su - root -s " ++ exampleConsts.BuildUserShell) ∧
    ((Chroot quietWorld exampleConsts nano fresh).2.ChrootEnvironment
        = exampleConsts.SaneEnvironment exampleConsts.BuildUser exampleConsts.BuildUserHome ∧
      Call.ChrootExecStdin fresh.overlay.MountPoint
          ("/bin/su - " ++ exampleConsts.BuildUser ++ " -s " ++ exampleConsts.BuildUserShell)
        ∈ calls (did fresh (Chroot quietWorld exampleConsts nano fresh)) ∧
      "/bin/su - build -s /bin/bash"
        = "/bin/su - " ++ exampleConsts.BuildUser ++ " -s " ++ exampleConsts.BuildUserShell) ∧
    (Call.ChrootExecStdin fresh.overlay.MountPoint
          ("/bin/su - " ++ exampleConsts.BuildUser ++ " -s " ++ exampleConsts.BuildUserShell)
        ∈ calls (did fresh (Chroot quietWorld exampleConsts { nano with CanNetwork := false } fresh))) :=
  ⟨⟨((Chroot_session_identity quietWorld exampleConsts pspec fresh).1 rfl).1,
    ((Chroot_session_identity quietWorld exampleConsts pspec fresh).1 rfl).2.2 (by decide),
    ((Chroot_session_identity quietWorld exampleConsts pspec fresh).1 rfl).2.1
      "/var/cache/solbuild/unstable/union" "/bin/su - root -s /bin/bash" (by decide)⟩,
   ⟨((Chroot_session_identity quietWorld exampleConsts nano fresh).2.1 (by decide)).1,
    ((Chroot_session_identity quietWorld exampleConsts nano fresh).2.1 (by decide)).2.2 (by decide),
    ((Chroot_session_identity quietWorld exampleConsts nano fresh).2.1 (by decide)).2.1
      "/var/cache/solbuild/unstable/union" "/bin/su - build -s /bin/bash" (by decide)⟩,
   ((Chroot_session_identity quietWorld exampleConsts { nano with CanNetwork := false } fresh).2.1
      (by decide)).2.2 (by decide)⟩

/-! ## The commands `chroot` and `init` (C9, C10) -/

/-- C9, evaluated on the code: root runs `chroot package.yml`, the manager, the
profile and the package load, and `manager.Chroot` fails.  `chrootPackage` logs
"Chroot failure" and returns nil, not an error. -/
theorem chrootPackage_nil_on_Chroot_failure :
    Event.call Call.ManagerChroot (some "exit status 1") ∈
      (chrootPackage (failingWorld Call.ManagerChroot "exit status 1") exampleConsts
        plainFlags ["package.yml"] fresh).2.trace ∧
    Event.log LogLevel.Error "Chroot failure" ∈
      (chrootPackage (failingWorld Call.ManagerChroot "exit status 1") exampleConsts
        plainFlags ["package.yml"] fresh).2.trace ∧
    (chrootPackage (failingWorld Call.ManagerChroot "exit status 1") exampleConsts
        plainFlags ["package.yml"] fresh).1 = Outcome.ret none := by
  decide

/-- C9, on every input: the only error `chrootPackage` ever returns is the one
for a missing file name; whatever fails after that, it returns nil or has left
through `os.Exit(1)` for a caller who is not root. -/
theorem chrootPackage_only_error (w : World) (k : Consts) (f : Flags) (args : List String)
    (s : State) (err : String) (h : (chrootPackage w k f args s).1 = Outcome.ret (some err)) :
    err = "Require a filename to chroot" := by
  unfold chrootPackage at h
  simp only at h
  repeat' split at h
  all_goals first
    | (simp only [Outcome.ret.injEq, Option.some.injEq] at h; exact h.symm)
    | simp at h

/-- C10, evaluated on the code: the profile is not installed.  First input: the
image is in place and `unxz` fails.  Second input: the image is absent, the
download fails (`http.Get` returns an error) and so does `unxz`.  In both
`doInit` logs the failure, then logs "Profile successfully initialised" and
returns, and `initProfile` returns too, without `os.Exit(1)`. -/
theorem doInit_reports_success_after_failure :
    (Event.call unxzCall (some "exit status 1") ∈
        (doInit (initWorld true [unxzCall] "exit status 1") exampleConsts plainFlags unstableImage
          fresh).2.trace ∧
      Event.log LogLevel.Error "Failed to decompress image" ∈
        (doInit (initWorld true [unxzCall] "exit status 1") exampleConsts plainFlags unstableImage
          fresh).2.trace ∧
      Event.log LogLevel.Info "Profile successfully initialised" ∈
        (doInit (initWorld true [unxzCall] "exit status 1") exampleConsts plainFlags unstableImage
          fresh).2.trace ∧
      (doInit (initWorld true [unxzCall] "exit status 1") exampleConsts plainFlags unstableImage
          fresh).1 = Outcome.ret () ∧
      (initProfile (initWorld true [unxzCall] "exit status 1") exampleConsts plainFlags unstableImage
        ["unstable-x86_64"] fresh).1 = Outcome.ret ()) ∧
    (Event.call (Call.HttpGet unstableImage.ImageURI) (some "failed") ∈
        (doInit (initWorld false [Call.HttpGet unstableImage.ImageURI, unxzCall] "failed")
          exampleConsts plainFlags unstableImage fresh).2.trace ∧
      Event.log LogLevel.Error "Failed to fetch image" ∈
        (doInit (initWorld false [Call.HttpGet unstableImage.ImageURI, unxzCall] "failed")
          exampleConsts plainFlags unstableImage fresh).2.trace ∧
      Event.log LogLevel.Info "Profile successfully initialised" ∈
        (doInit (initWorld false [Call.HttpGet unstableImage.ImageURI, unxzCall] "failed")
          exampleConsts plainFlags unstableImage fresh).2.trace ∧
      (doInit (initWorld false [Call.HttpGet unstableImage.ImageURI, unxzCall] "failed")
          exampleConsts plainFlags unstableImage fresh).1 = Outcome.ret () ∧
      (initProfile (initWorld false [Call.HttpGet unstableImage.ImageURI, unxzCall] "failed")
        exampleConsts plainFlags unstableImage ["unstable-x86_64"] fresh).1 = Outcome.ret ()) := by
  decide

/-! ## `BindSources` and the extra mounts (C11) -/

theorem bindMounts_append (t u : List Event) : bindMounts (t ++ u) = bindMounts t ++ bindMounts u := by
  simp [bindMounts]

theorem mounted_append (t u : List Event) : mounted (t ++ u) = mounted t ++ mounted u := by
  simp [mounted, bindMounts_append]

theorem GetSourceDir_mount (k : Consts) (p : Package) (o o' : Overlay)
    (h : o'.MountPoint = o.MountPoint) : GetSourceDir k p o' = GetSourceDir k p o := by
  simp only [GetSourceDir, h]

theorem BindSources_loop_mounts (w : World) (k : Consts) (p : Package) (l : List Source)
    (s : State) :
    ∃ t, (BindSources.loop w k p l s).2.trace = s.trace ++ t ∧
      (BindSources.loop w k p l s).2.overlay.ExtraMounts = s.overlay.ExtraMounts ++ mounted t ∧
      (bindMounts t).map (fun x => (x.1, x.2.1)) <+:
        l.map (fun source => (k.GetPath source (expHash p source), tgtPath k p s.overlay source)) ∧
      (BindSources.loop w k p l s).2.overlay.MountPoint = s.overlay.MountPoint := by
  induction l generalizing s with
  | nil => exact ⟨[], by simp [BindSources.loop], by simp [BindSources.loop, mounted, bindMounts],
      by simp [bindMounts], by simp [BindSources.loop]⟩
  | cons source rest ih =>
    unfold BindSources.loop
    simp only
    have key : ∀ (s₁ : State) (h₀ : List Event), s₁.trace = s.trace ++ h₀ → bindMounts h₀ = [] →
        s₁.overlay = s.overlay →
        ∃ t, (match invoke w (Call.TouchFile (tgtPath k p s.overlay source))
                (s₁.log LogLevel.Debug "Exposing source to container") with
            | (some _, s₂) => ((none : GoError), s₂.log LogLevel.Error "Failed to create bind mount target")
            | (none, s₂) =>
              match invoke w (Call.BindMount (k.GetPath source (expHash p source))
                  (tgtPath k p s.overlay source) "ro") s₂ with
              | (some err, s₃) => (some err, s₃.log LogLevel.Error "Failed to bind mount source")
              | (none, s₃) =>
                BindSources.loop w k p rest
                  { s₃ with overlay := { s₃.overlay with
                      ExtraMounts := s₃.overlay.ExtraMounts ++ [tgtPath k p s.overlay source] } }).2.trace
              = s.trace ++ t ∧
          (match invoke w (Call.TouchFile (tgtPath k p s.overlay source))
                (s₁.log LogLevel.Debug "Exposing source to container") with
            | (some _, s₂) => ((none : GoError), s₂.log LogLevel.Error "Failed to create bind mount target")
            | (none, s₂) =>
              match invoke w (Call.BindMount (k.GetPath source (expHash p source))
                  (tgtPath k p s.overlay source) "ro") s₂ with
              | (some err, s₃) => (some err, s₃.log LogLevel.Error "Failed to bind mount source")
              | (none, s₃) =>
                BindSources.loop w k p rest
                  { s₃ with overlay := { s₃.overlay with
                      ExtraMounts := s₃.overlay.ExtraMounts ++ [tgtPath k p s.overlay source] } }).2.overlay.ExtraMounts
              = s.overlay.ExtraMounts ++ mounted t ∧
          (bindMounts t).map (fun x => (x.1, x.2.1)) <+:
            (source :: rest).map
              (fun source => (k.GetPath source (expHash p source), tgtPath k p s.overlay source)) ∧
          (match invoke w (Call.TouchFile (tgtPath k p s.overlay source))
                (s₁.log LogLevel.Debug "Exposing source to container") with
            | (some _, s₂) => ((none : GoError), s₂.log LogLevel.Error "Failed to create bind mount target")
            | (none, s₂) =>
              match invoke w (Call.BindMount (k.GetPath source (expHash p source))
                  (tgtPath k p s.overlay source) "ro") s₂ with
              | (some err, s₃) => (some err, s₃.log LogLevel.Error "Failed to bind mount source")
              | (none, s₃) =>
                BindSources.loop w k p rest
                  { s₃ with overlay := { s₃.overlay with
                      ExtraMounts := s₃.overlay.ExtraMounts ++ [tgtPath k p s.overlay source] } }).2.overlay.MountPoint
              = s.overlay.MountPoint := by
      intro s₁ h₀ ht₁ hb₁ ho₁
      split
      · rename_i err s₂ h
        have e₂ := invoke_eq h
        subst e₂
        refine ⟨h₀ ++ [Event.log LogLevel.Debug "Exposing source to container",
          Event.call (Call.TouchFile (tgtPath k p s.overlay source)) (some err),
          Event.log LogLevel.Error "Failed to create bind mount target"], ?_, ?_, ?_, ?_⟩
        · simp [ht₁]
        · have hb : bindMounts [Event.log LogLevel.Debug "Exposing source to container",
              Event.call (Call.TouchFile (tgtPath k p s.overlay source)) (some err),
              Event.log LogLevel.Error "Failed to create bind mount target"] = [] := rfl
          simp [ho₁, mounted, bindMounts_append, hb₁, hb]
        · have hb : bindMounts [Event.log LogLevel.Debug "Exposing source to container",
              Event.call (Call.TouchFile (tgtPath k p s.overlay source)) (some err),
              Event.log LogLevel.Error "Failed to create bind mount target"] = [] := rfl
          simp [bindMounts_append, hb₁, hb]
        · simp [ho₁]
      · rename_i s₂ h
        have e₂ := invoke_eq h
        subst e₂
        split
        · rename_i err s₃ h'
          have e₃ := invoke_eq h'
          subst e₃
          refine ⟨h₀ ++ [Event.log LogLevel.Debug "Exposing source to container",
            Event.call (Call.TouchFile (tgtPath k p s.overlay source)) none,
            Event.call (Call.BindMount (k.GetPath source (expHash p source))
              (tgtPath k p s.overlay source) "ro") (some err),
            Event.log LogLevel.Error "Failed to bind mount source"], ?_, ?_, ?_, ?_⟩
          · simp [ht₁]
          · have hb : bindMounts [Event.log LogLevel.Debug "Exposing source to container",
                Event.call (Call.TouchFile (tgtPath k p s.overlay source)) none,
                Event.call (Call.BindMount (k.GetPath source (expHash p source))
                  (tgtPath k p s.overlay source) "ro") (some err),
                Event.log LogLevel.Error "Failed to bind mount source"] =
                [(k.GetPath source (expHash p source), tgtPath k p s.overlay source, some err)] := rfl
            simp [ho₁, mounted, bindMounts_append, hb₁, hb]
          · have hb : bindMounts [Event.log LogLevel.Debug "Exposing source to container",
                Event.call (Call.TouchFile (tgtPath k p s.overlay source)) none,
                Event.call (Call.BindMount (k.GetPath source (expHash p source))
                  (tgtPath k p s.overlay source) "ro") (some err),
                Event.log LogLevel.Error "Failed to bind mount source"] =
                [(k.GetPath source (expHash p source), tgtPath k p s.overlay source, some err)] := rfl
            simp [bindMounts_append, hb₁, hb]
          · simp [ho₁]
        · rename_i s₃ h'
          have e₃ := invoke_eq h'
          have h3t : s₃.trace = s.trace ++ (h₀ ++
              [Event.log LogLevel.Debug "Exposing source to container",
                Event.call (Call.TouchFile (tgtPath k p s.overlay source)) none,
                Event.call (Call.BindMount (k.GetPath source (expHash p source))
                  (tgtPath k p s.overlay source) "ro") none]) := by
            rw [e₃]
            simp [ht₁]
          have h3o : s₃.overlay = s.overlay := by
            rw [e₃]
            simp [ho₁]
          have hb : bindMounts [Event.log LogLevel.Debug "Exposing source to container",
              Event.call (Call.TouchFile (tgtPath k p s.overlay source)) none,
              Event.call (Call.BindMount (k.GetPath source (expHash p source))
                (tgtPath k p s.overlay source) "ro") none] =
              [(k.GetPath source (expHash p source), tgtPath k p s.overlay source, none)] := rfl
          obtain ⟨t, ht, hm, hp, ho⟩ := ih
            { s₃ with overlay := { s₃.overlay with
                ExtraMounts := s₃.overlay.ExtraMounts ++ [tgtPath k p s.overlay source] } }
          refine ⟨(h₀ ++ [Event.log LogLevel.Debug "Exposing source to container",
            Event.call (Call.TouchFile (tgtPath k p s.overlay source)) none,
            Event.call (Call.BindMount (k.GetPath source (expHash p source))
              (tgtPath k p s.overlay source) "ro") none]) ++ t, ?_, ?_, ?_, ?_⟩
          · rw [ht]
            show s₃.trace ++ t = _
            rw [h3t, List.append_assoc]
          · rw [hm]
            show (s₃.overlay.ExtraMounts ++ [tgtPath k p s.overlay source]) ++ mounted t = _
            rw [h3o, mounted_append, mounted_append]
            simp [mounted, hb₁, hb]
          · have hsd : ∀ src, tgtPath k p { s₃.overlay with
                ExtraMounts := s₃.overlay.ExtraMounts ++ [tgtPath k p s.overlay source] } src
                = tgtPath k p s.overlay src := by
              intro src
              simp only [tgtPath]
              rw [GetSourceDir_mount k p s.overlay _ (by simp [h3o])]
            simp only [hsd] at hp
            rw [bindMounts_append, bindMounts_append, hb₁, hb]
            simpa [List.cons_prefix_cons] using hp
          · rw [ho]
            show s₃.overlay.MountPoint = _
            rw [h3o]
    split
    · rename_i s₁ h
      simp only [ask, Prod.mk.injEq] at h
      exact key s₁ [Event.test (Query.PathExists (GetSourceDir k p s.overlay)) true]
        (by rw [← h.2, h.1]; rfl) rfl (by rw [← h.2]; rfl)
    · rename_i s₁ h
      simp only [ask, Prod.mk.injEq] at h
      split
      · rename_i err s₂ h'
        have e₂ := invoke_eq h'
        subst e₂
        refine ⟨[Event.test (Query.PathExists (GetSourceDir k p s.overlay)) false,
          Event.call (Call.MkdirAll (GetSourceDir k p s.overlay)) (some err),
          Event.log LogLevel.Error "Failed to create source directory"], ?_, ?_, ?_, ?_⟩
        · simp [← h.2, h.1]
        · have hb : mounted [Event.test (Query.PathExists (GetSourceDir k p s.overlay)) false,
              Event.call (Call.MkdirAll (GetSourceDir k p s.overlay)) (some err),
              Event.log LogLevel.Error "Failed to create source directory"] = [] := rfl
          simp [← h.2, hb]
        · have hb : bindMounts [Event.test (Query.PathExists (GetSourceDir k p s.overlay)) false,
              Event.call (Call.MkdirAll (GetSourceDir k p s.overlay)) (some err),
              Event.log LogLevel.Error "Failed to create source directory"] = [] := rfl
          simp [hb]
        · simp [← h.2]
      · rename_i s₂ h'
        have e₂ := invoke_eq h'
        subst e₂
        exact key _ [Event.test (Query.PathExists (GetSourceDir k p s.overlay)) false,
          Event.call (Call.MkdirAll (GetSourceDir k p s.overlay)) none]
          (by simp [← h.2, h.1]) rfl (by simp [← h.2])

/-- C11: on every return from `BindSources`, early or not, the `ExtraMounts` of
the overlay are the ones it had before the call followed by the targets of the
bind mounts that succeeded, in order; and the bind mounts attempted are those of
the declared sources, in declaration order, each onto the source directory
joined with the file name of the source.  So every successful bind mount is
tracked, no path that was not mounted is added, and the earlier entries stay. -/
theorem BindSources_tracks_mounts (w : World) (k : Consts) (p : Package) (s : State) :
    (BindSources w k p s).2.overlay.ExtraMounts =
      s.overlay.ExtraMounts ++ mounted (did s (BindSources w k p s)) ∧
    (bindMounts (did s (BindSources w k p s))).map (fun x => (x.1, x.2.1)) <+:
      p.Sources.map
        (fun source => (k.GetPath source (expHash p source), tgtPath k p s.overlay source)) := by
  obtain ⟨t, ht, hm, hp, -⟩ := BindSources_loop_mounts w k p p.Sources s
  have hd : did s (BindSources w k p s) = t := did_eq s _ t ht
  rw [hd]
  exact ⟨hm, hp⟩

/-! ## `Chroot` of `src/src/builder/chroot.go` (C12) -/

/-- C12: on every return of the `Chroot` of `src/src/builder/chroot.go` (root
activation failed, `DropNetworking` failed, `ConfigureNetworking` failed, or the
login shell ended with or without error) the reaper is invoked exactly once, and
it is the last thing `Chroot` does, after every stage it ran. -/
theorem SrcTree_Chroot_reaper_once_and_last (w : World) (k : Consts) (p : Package)
    (overlay : Overlay) (s : State) :
    (did s (SrcTree.Chroot w k p overlay s)).count Event.reaper = 1 ∧
    (did s (SrcTree.Chroot w k p overlay s)).getLast? = some Event.reaper := by
  unfold SrcTree.Chroot
  simp only [invoke, State.log, State.emit, List.append_assoc, List.cons_append, List.nil_append]
  cases h1 : w.outcome (s.trace ++ [Event.log LogLevel.Info "Beginning chroot",
      Event.HandleInterrupt]) Call.ActivateRoot with
  | some err => simp [did, List.count_cons]
  | none =>
    simp only
    cases h2 : w.outcome (s.trace ++ [Event.log LogLevel.Info "Beginning chroot",
        Event.HandleInterrupt, Event.call Call.ActivateRoot none]) Call.DropNetworking with
    | some err => simp [did, List.count_cons]
    | none =>
      simp only
      cases h3 : w.outcome (s.trace ++ [Event.log LogLevel.Info "Beginning chroot",
          Event.HandleInterrupt, Event.call Call.ActivateRoot none,
          Event.call Call.DropNetworking none]) Call.ConfigureNetworking with
      | some err => simp [did, List.count_cons, h3]
      | none => simp [did, List.count_cons, h3]

/-! ## `Build` never returns nil (C13) -/

theorem followsPlan_result (final : GoError) (pl : List Call) (sc : List (Call × GoError))
    (res : GoError) (h : followsPlan final pl sc res) : res = final ∨ ∃ err, res = some err := by
  induction pl generalizing sc with
  | nil =>
    simp only [followsPlan] at h
    exact Or.inl h.2
  | cons c₀ rest ih =>
    match sc, h with
    | [], h => simp [followsPlan] at h
    | (c', none) :: sc, h =>
      simp only [followsPlan] at h
      exact ih sc h.2
    | [(c', some e)], h =>
      simp only [followsPlan] at h
      exact Or.inr ⟨e, h.2⟩
    | (c', some e) :: y :: sc, h => simp [followsPlan] at h

/-- C13: `Build` returns a non-nil error on every path, for every package and
every outcome of the stages: the error of the stage that failed, or, when every
stage it invoked succeeded, the error "Not yet implemented". -/
theorem Build_never_returns_nil (w : World) (k : Consts) (p : Package) (s : State) :
    (Build w k p s).1 ≠ none ∧
    ((∀ x ∈ stageCalls (did s (Build w k p s)), x.2 = none) →
      (Build w k p s).1 = some "Not yet implemented") := by
  have hf := Build_follows w k p s
  constructor
  · rcases followsPlan_result _ _ _ _ hf with h | ⟨err, h⟩ <;> rw [h] <;> simp
  · intro hok
    exact (followsPlan_all_ok _ _ _ _ hf hok).2

/-- C13 at concrete inputs: every stage succeeds for the modern `nano` and for
the legacy `pspec`, and `Build` returns "Not yet implemented" for both. -/
theorem Build_never_returns_nil_witness :
    (Build quietWorld exampleConsts nano fresh).1 = some "Not yet implemented" ∧
    (Build quietWorld exampleConsts pspec fresh).1 = some "Not yet implemented" :=
  ⟨(Build_never_returns_nil quietWorld exampleConsts nano fresh).2 (by decide),
   (Build_never_returns_nil quietWorld exampleConsts pspec fresh).2 (by decide)⟩

/-- Two runs of `BindSources` on `nano`, started with one earlier entry in
`ExtraMounts`: when the bind mount succeeds the target is appended after the
earlier entry; when it is rejected the list is the one from before the call and
the error is returned. -/
theorem BindSources_ExtraMounts_examples :
    (BindSources quietWorld exampleConsts nano
        { fresh with overlay := { fresh.overlay with ExtraMounts := ["/earlier"] } }).2.overlay.ExtraMounts
      = ["/earlier", touchTarget] ∧
    (BindSources
        (failingWorld (Call.BindMount "/var/lib/solbuild/sources/9b7e/nano-2.7.tar.xz" touchTarget "ro")
          "operation not permitted") exampleConsts nano
        { fresh with overlay := { fresh.overlay with ExtraMounts := ["/earlier"] } }).2.overlay.ExtraMounts
      = ["/earlier"] ∧
    (BindSources
        (failingWorld (Call.BindMount "/var/lib/solbuild/sources/9b7e/nano-2.7.tar.xz" touchTarget "ro")
          "operation not permitted") exampleConsts nano
        { fresh with overlay := { fresh.overlay with ExtraMounts := ["/earlier"] } }).1
      = some "operation not permitted" := by
  decide

end Solbuild
